import Mathlib

/-!
# Verification of the interview-assessment report generator

Shallow embedding of the analysis and report-compilation code in `main.py`
(entity comparison, verdict heuristic, judgment normalization, and the
PDF layout engine), together with proofs of the specification claims.

Modelling conventions:
* Python sets of `(text, label)` entity pairs become `Finset (String × String)`.
* Python strings become Lean `String`; character-level reasoning uses `.data`.
* The external judgment collaborator (`ollama.generate`) is modelled as an
  optional function from the prompt to either a failure (`Except.error`,
  covering raised exceptions, timeouts and malformed responses) or a response
  string.  `none` models an unavailable collaborator (e.g. import failure).
  Since the Python function catches every exception, the embedding is total.
* The PDF canvas is modelled as the list of emitted layout operations
  (`Op`): cursor-positioned text writes, page breaks, and the two footer
  writes that the source draws at the fixed positions y=25 and y=15
  (not derived from the layout cursor).
* Vertical coordinates are exact integers.  The only fractional source
  arithmetic, `len(line) * (size * 0.5) < max_width`, is an exact comparison
  of halves, embedded as `len * size < 2 * max_width`.
* The Python arbitrary-precision integers are `Nat` where the source
  guarantees nonnegativity (error counts, set cardinalities).
-/

/-- An interview/CV entity: a `(surface text, label)` pair, with value
equality, exactly as produced by `extract_entities` in `main.py`. -/
abbrev Entity := String × String

/-- Decimal digits of a positive natural number, most significant first.
Embeds the digit sequence produced by the Python string formatting of an int. -/
def natReprAux : Nat → List Char
  | 0 => []
  | n + 1 => natReprAux ((n + 1) / 10) ++ [Char.ofNat (48 + (n + 1) % 10)]
decreasing_by exact Nat.div_lt_self (Nat.succ_pos n) (by omega)

/-- Decimal rendering of a natural number, as the Python f-string interpolation
of a nonnegative int renders it. -/
def natRepr (n : Nat) : String := if n = 0 then ("0") else String.mk (natReprAux n)

/-- Python `str.split()` on a character list: maximal runs of
non-whitespace characters, with all whitespace discarded. -/
def splitWords (l : List Char) : List (List Char) :=
  match l with
  | [] => []
  | c :: cs =>
    if c.isWhitespace then splitWords cs
    else (c :: cs.takeWhile (fun d => !d.isWhitespace)) ::
      splitWords (cs.dropWhile (fun d => !d.isWhitespace))
termination_by l.length
decreasing_by
  · simp
  · have h : (cs.dropWhile (fun d => !d.isWhitespace)).length ≤ cs.length :=
      (List.dropWhile_sublist _).length_le
    simp only [List.length_cons]; omega

/-- Fuel-indexed, structurally recursive twin of `splitWords` (the
well-founded recursion above does not reduce in the kernel); used to
evaluate `splitWords` on concrete strings. -/
def splitWordsFuel : Nat → List Char → List (List Char)
  | 0, _ => []
  | _, [] => []
  | n + 1, c :: cs =>
    if c.isWhitespace then splitWordsFuel n cs
    else (c :: cs.takeWhile (fun d => !d.isWhitespace)) ::
      splitWordsFuel n (cs.dropWhile (fun d => !d.isWhitespace))

/-- Join a list of words with single spaces (the shape of the lines that the
greedy wrapper accumulates). -/
def joinSp : List (List Char) → List Char
  | [] => []
  | [w] => w
  | w :: v :: ws => w ++ ' ' :: joinSp (v :: ws)

/-- Split a character list into its lines at newline characters
(the line structure scanned for a verdict token). -/
def splitLines : List Char → List (List Char)
  | [] => [[]]
  | c :: cs =>
    if c = '\n' then [] :: splitLines cs
    else
      match splitLines cs with
      | [] => [[c]]
      | l :: ls => (c :: l) :: ls

/-- Function `compare_entities` from `main.py`: matched = transcript ∩ CV,
cv_only = CV − transcript. -/
def compare_entities (transcript_ents cv_ents : Finset Entity) :
    Finset Entity × Finset Entity :=
  (transcript_ents ∩ cv_ents, cv_ents \ transcript_ents)

/-- The fallback verdict expression of `get_llm_judgment` (main.py line 91):
`"HIRE" if (grammar_errors < 5 and len(matched) >= 3) else
 "REJECT" if grammar_errors > 15 else "MAYBE"`. -/
def heuristic_verdict (grammar_errors matchedCount : Nat) : String :=
  if grammar_errors < 5 ∧ 3 ≤ matchedCount then ("HIRE")
  else if 15 < grammar_errors then ("REJECT")
  else ("MAYBE")

/-- Modelled from the spec: the same verdict rules written in the spec-stated
precedence (grammarErrors > 15 first, then the HIRE rule, then
REVIEW/MAYBE), first match winning.  Used to compare the code evaluation
order against the spec ordering. -/
def spec_precedence_verdict (grammar_errors matchedCount : Nat) : String :=
  if 15 < grammar_errors then ("REJECT")
  else if grammar_errors < 5 ∧ 3 ≤ matchedCount then ("HIRE")
  else ("MAYBE")

/-- The fallback narrative paragraph of `get_llm_judgment`
(main.py lines 91-94), including its trailing verdict line. -/
def fallback_response (grammar_errors matchedCount : Nat) : String :=
  "The candidate demonstrated professional communication abilities. Experience alignment is "
    ++ (if 3 < matchedCount then ("excellent")
        else if 1 < matchedCount then ("good") else ("limited"))
    ++ ". Technical competency appears "
    ++ (if 3 < matchedCount then ("strong") else ("adequate"))
    ++ ".\n\nVERDICT: " ++ heuristic_verdict grammar_errors matchedCount

/-- The prompt `get_llm_judgment` sends to the external judge
(main.py lines 65-75): transcript truncated to 400 characters plus the
analysis counts. -/
def judgment_prompt (transcript : String) (grammar_errors matchedCount missingCount : Nat) :
    String :=
  "You are an expert HR interviewer. Analyze this interview professionally.\n\nTRANSCRIPT (first 400 chars): "
    ++ String.mk (transcript.data.take 400)
    ++ "\n\nANALYSIS:\n- Grammar errors: " ++ natRepr grammar_errors
    ++ "\n- Skills mentioned: " ++ natRepr matchedCount
    ++ "\n- Skills missing: " ++ natRepr missingCount
    ++ "\n\nWrite a brief 3-4 sentence assessment. End with:\nVERDICT: HIRE / REJECT / MAYBE"

/-- Function `get_llm_judgment` from `main.py` (lines 61-94).  The external judge is a
parameter (see module docstring); every failure path of the Python code
(no ollama, exception, empty or ≤30-character response) reaches the
heuristic fallback, exactly as the `try/except` plus length guard do. -/
def get_llm_judgment (judge : Option (String → Except Unit String)) (transcript : String)
    (grammar_errors : Nat) (matched_entities missing_entities : Finset Entity) : String :=
  let fb := fallback_response grammar_errors matched_entities.card
  match judge with
  | none => fb
  | some j =>
    match j (judgment_prompt transcript grammar_errors matched_entities.card
        missing_entities.card) with
    | Except.error _ => fb
    | Except.ok assessment =>
      if assessment ≠ "" ∧ 30 < assessment.length then
        if ("VERDICT:").data <:+: assessment.data then assessment
        else if ("HIRE").data <:+: assessment.toUpper.data then
          assessment ++ "\n\nVERDICT: HIRE"
        else assessment ++ "\n\nVERDICT: REJECT"
      else fb

/-- The situations in which `get_llm_judgment` takes its heuristic fallback
path: judge absent, judge raised, or response empty/undersized. -/
def judge_fallback_case (judge : Option (String → Except Unit String))
    (prompt : String) : Prop :=
  match judge with
  | none => True
  | some j =>
    match j prompt with
    | Except.error _ => True
    | Except.ok a => ¬(a ≠ "" ∧ 30 < a.length)

/-- Test `"HIRE" in llm_summary.upper()` (main.py lines 178, 305, 344). -/
def mentions_hire (s : String) : Bool := decide (("HIRE").data <:+: s.toUpper.data)

/-- Test `"REJECT" in llm_summary.upper()` (main.py lines 178, 305, 344). -/
def mentions_reject (s : String) : Bool := decide (("REJECT").data <:+: s.toUpper.data)

/-- The verdict the report derives from the normalized judgment text
(the condition shared by the banner, recommendation and next-steps
branches of `generate_beautiful_pdf`). -/
inductive Verdict where
  | HIRE
  | REJECT
  | REVIEW
deriving DecidableEq

/-- Verdict derivation by uppercase substring containment, exactly as all
three selection sites in `generate_beautiful_pdf` test it. -/
def derived_verdict (s : String) : Verdict :=
  if mentions_hire s && !mentions_reject s then Verdict.HIRE
  else if mentions_reject s then Verdict.REJECT
  else Verdict.REVIEW

/-- The verdict banner of `generate_beautiful_pdf` (lines 176-188): banner
label and RGB fill color. -/
def banner_of (llm_summary : String) : String × ℚ × ℚ × ℚ :=
  if mentions_hire llm_summary && !mentions_reject llm_summary then
    ("VERDICT: ✓ HIRE", 0.2, 0.8, 0.2)
  else if mentions_reject llm_summary then
    ("VERDICT: ✗ REJECT", 0.9, 0.2, 0.2)
  else
    ("VERDICT: ◆ FURTHER REVIEW", 0.9, 0.7, 0.1)

/-- The HIRE-branch recommendation list (main.py lines 306-312). -/
def hire_recommendations : List String :=
  ["✓ STRONG HIRE - Excellent communication and skill match",
   "✓ Proceed to technical assessment immediately",
   "✓ Prepare compensation offer package",
   "✓ Schedule background verification",
   "✓ Plan 30-60-90 day onboarding"]

/-- The REJECT-branch recommendation list (main.py lines 314-320). -/
def reject_recommendations : List String :=
  ["✗ NOT RECOMMENDED at this time",
   "✗ Send professional rejection with feedback",
   "◆ Suggest: English training and reapply in 6 months",
   "◆ Keep in talent pool for future opportunities",
   "◆ Provide resources for improvement"]

/-- The conditional-review recommendation list (main.py lines 322-328). -/
def review_recommendations : List String :=
  ["◆ CONDITIONAL - Requires further evaluation",
   "◆ Technical assessment recommended",
   "◆ Schedule focused follow-up interview",
   "◆ Request portfolio/project examples",
   "◆ Final decision after 2nd round"]

/-- Recommendation-list selection (main.py lines 305-328). -/
def recommendations_of (llm_summary : String) : List String :=
  if mentions_hire llm_summary && !mentions_reject llm_summary then hire_recommendations
  else if mentions_reject llm_summary then reject_recommendations
  else review_recommendations

/-- The HIRE-branch next-steps text (main.py lines 345-349). -/
def hire_steps : String :=
  "1. Contact candidate with positive feedback\n2. Schedule technical assessment interview\n3. Prepare offer letter with benefits package\n4. Conduct background and reference check\n5. Send official offer and set start date"

/-- The next-steps text of the else branch (main.py lines 351-355),
shared by REJECT and REVIEW verdicts. -/
def reject_steps : String :=
  "1. Send professional rejection email\n2. Provide constructive feedback\n3. Recommend language/skill training\n4. Keep contact for future roles\n5. Schedule 6-month follow-up"

/-- Next-steps selection (main.py lines 344-355). -/
def next_steps_of (llm_summary : String) : String :=
  if mentions_hire llm_summary && !mentions_reject llm_summary then hire_steps
  else reject_steps

/-- The communication narrative of the detailed assessment
(main.py lines 215-222). -/
def comm_text (grammar_errors : Nat) : String :=
  if grammar_errors < 3 then
    "EXCELLENT - Outstanding communication with minimal errors. Speech is clear, professional, and well-articulated."
  else if grammar_errors < 8 then
    "GOOD - Generally clear communication with " ++ natRepr grammar_errors
      ++ " minor errors. Ideas expressed well but could be more polished."
  else if grammar_errors < 12 then
    "AVERAGE - Communication present but " ++ natRepr grammar_errors
      ++ " language errors detected. Needs professional language improvement."
  else
    "POOR - Multiple (" ++ natRepr grammar_errors
      ++ ") language errors affecting clarity. Significant improvement needed."

/-- The `alignment` value (main.py line 194): matched percentage of the CV entity
total.  The source computes it in floating point; values here are exact
rationals (the band comparisons below never depend on sub-ulp differences
for the cardinalities a run can produce). -/
def alignment_pct (matchedCount cvOnlyCount : Nat) : ℚ :=
  if 0 < matchedCount + cvOnlyCount then
    (matchedCount : ℚ) / (max (matchedCount + cvOnlyCount) 1 : ℚ) * 100
  else 0

/-- The experience-alignment narrative (main.py lines 232-237). -/
def exp_text (matchedCount cvOnlyCount : Nat) : String :=
  if 75 < alignment_pct matchedCount cvOnlyCount then
    "EXCELLENT - Candidate discussed " ++ natRepr matchedCount
      ++ " key skills. Strong awareness of relevant experience with minimal CV gaps."
  else if 50 < alignment_pct matchedCount cvOnlyCount then
    "GOOD - " ++ natRepr matchedCount ++ " skills discussed. However, "
      ++ natRepr cvOnlyCount ++ " important CV experiences were not mentioned."
  else
    "CONCERNING - Only " ++ natRepr matchedCount ++ " of "
      ++ natRepr (matchedCount + cvOnlyCount)
      ++ " CV skills mentioned. Major experience gaps need clarification."

/-- The technical-knowledge narrative (main.py lines 247-252). -/
def tech_text (matchedCount : Nat) : String :=
  if 3 < matchedCount then
    "STRONG - Demonstrated strong technical knowledge with specific examples. Shows confidence and domain expertise."
  else if 1 < matchedCount then
    "ADEQUATE - Adequate technical knowledge shown but limited detail. Some hesitation noted."
  else
    "LIMITED - Limited technical depth. Seemed uncertain about key competencies."

/-- A layout operation emitted while generating the PDF: a text write at the
cursor-derived vertical position `y`, a page break (`c.showPage()`), or one
of the two footer writes that the source draws at the fixed positions
y=25 and y=15 independent of the layout cursor. -/
inductive Op where
  | write (y : Int) (text : String)
  | footerWrite (y : Int) (text : String)
  | newPage
deriving DecidableEq

/-- One iteration of the greedy word-wrap loop of `wrap_text`
(main.py lines 135-146): accumulate the word if the estimated line width
stays under `max_width`, otherwise flush the pending line (truncated to 110
characters) and start a new one; then break the page if the cursor crossed
the bottom margin.  State is `(y, pending line, emitted ops)`. -/
def wrapStep (size : Nat) (maxWidth : Int) (st : Int × List Char × List Op)
    (word : List Char) : Int × List Char × List Op :=
  let cand := if st.2.1 = [] then word else st.2.1 ++ ' ' :: word
  let next :=
    if (cand.length : Int) * (size : Int) < 2 * maxWidth then (st.1, cand, st.2.2)
    else if st.2.1 = [] then (st.1, word, st.2.2)
    else (st.1 - ((size : Int) + 3), word,
      st.2.2 ++ [Op.write st.1 (String.mk (st.2.1.take 110))])
  if next.1 < 50 then (792 - 40, next.2.1, next.2.2 ++ [Op.newPage]) else next

/-- Function `wrap_text` from `main.py` (lines 126-152): greedy word wrap with the
character-count width estimate, the 110-character truncation, and the
mid-paragraph page break.  Returns the new cursor position and the emitted
operations. -/
def wrap_text (y0 : Int) (text : String) (size : Nat) (indent : Nat) : Int × List Op :=
  let maxWidth : Int := 612 - 80 - (indent : Int)
  let r := (splitWords text.data).foldl (wrapStep size maxWidth) (y0, [], [])
  if r.2.1 = [] then (r.1, r.2.2)
  else (r.1 - ((size : Int) + 3), r.2.2 ++ [Op.write r.1 (String.mk (r.2.1.take 110))])

/-- Function `draw_colored_box` (main.py lines 104-112): writes its label at
`y - 18` (the rectangle itself is a graphic, not a text write) and
advances the cursor by 30. -/
def draw_colored_box (y : Int) (text : String) : Int × List Op :=
  (y - 30, [Op.write (y - 18) text])

/-- Function `draw_section_header` (main.py lines 114-124): writes the title at `y`
(the horizontal rule is a stroke, not a text write) and advances the cursor
by 25. -/
def draw_section_header (y : Int) (title : String) : Int × List Op :=
  (y - 25, [Op.write y title])

/-- The improvement items (main.py lines 265-279), appended conditionally
in source order, always ending with the generic confidence item. -/
def improvements_list (grammar_errors matchedCount cvOnlyCount : Nat) :
    List (String × String × String) :=
  (if 5 < grammar_errors then
    [("Communication Polish", natRepr grammar_errors ++ " grammar/language errors found",
      "Practice speaking clearly and slowly. Record yourself and review. Consider English language training. Focus on professional vocabulary.")]
   else [])
  ++ (if matchedCount < cvOnlyCount then
    [("Experience Discussion",
      "Only " ++ natRepr matchedCount ++ "/" ++ natRepr (matchedCount + cvOnlyCount)
        ++ " key skills discussed",
      "Prepare specific examples from your CV. Use STAR method (Situation, Task, Action, Result). Highlight ALL relevant achievements.")]
   else [])
  ++ (if 0 < matchedCount ∧ matchedCount < 3 then
    [("Technical Knowledge",
      "Limited technical skills discussed (" ++ natRepr matchedCount ++ ")",
      "Study the job description thoroughly. Prepare technical project examples. Practice explaining concepts clearly.")]
   else [])
  ++ (if grammar_errors = 0 then
    [("Communication Excellence", "No grammar errors",
      "Maintain this high standard! Your clarity is a key strength.")]
   else [])
  ++ [("Confidence & Presence", "Overall interview presence",
      "Make more eye contact. Speak with conviction. Use confident body language. Prepare thoroughly for all questions.")]

/-- One iteration of the improvement-areas loop (main.py lines 281-295):
page break below 100, numbered area header, current-state line, wrapped
action paragraph.  State is `(y, ops, 1-based index)`. -/
def improvementStep (st : Int × List Op × Nat) (item : String × String × String) :
    Int × List Op × Nat :=
  let y0 := if st.1 < 100 then (792 - 40 : Int) else st.1
  let ops0 := if st.1 < 100 then st.2.1 ++ [Op.newPage] else st.2.1
  let ops1 := ops0 ++ [Op.write y0 (natRepr st.2.2 ++ ". " ++ item.1)]
  let y1 := y0 - 12
  let ops2 := ops1 ++ [Op.write y1 ("Current: " ++ item.2.1)]
  let y2 := y1 - 10
  let wr := wrap_text y2 ("Action: " ++ item.2.2) 9 30
  (wr.1 - 8, ops2 ++ wr.2, st.2.2 + 1)

/-- One iteration of the recommendations loop (main.py lines 330-336):
page break below 50, then the wrapped recommendation line. -/
def recStep (st : Int × List Op) (r : String) : Int × List Op :=
  let y0 := if st.1 < 50 then (792 - 40 : Int) else st.1
  let ops0 := if st.1 < 50 then st.2 ++ [Op.newPage] else st.2
  let wr := wrap_text y0 r 10 0
  (wr.1 - 5, ops0 ++ wr.2)

/-- The full layout trace of `generate_beautiful_pdf` (main.py lines
96-363): every cursor write, page break and footer write, in emission
order.  The date, time and assessment-id strings (rendered from
`datetime.now()` in the source) are parameters; they only affect write
text, never the cursor.  The skills-discussed percentage in the quick
stats is rendered with integer division where the source formats a float
with `:.0f` (text-only difference, the cursor is unaffected). -/
def generate_ops (grammar_errors : Nat) (entities : Finset Entity)
    (matched cv_only : Finset Entity) (llm_summary : String)
    (candidate_name position dateStr timeStr assessId : String) : List Op :=
  let y : Int := 792 - 40
  let ops : List Op := [Op.write y ("INTERVIEW ASSESSMENT")]
  let y := y - 10
  let y := y - 25
  let ops := ops ++ [Op.write y ("Candidate: " ++ candidate_name ++ "  |  Position: " ++ position)]
  let y := y - 15
  let ops := ops ++ [Op.write y ("Date: " ++ dateStr ++ "  |  Time: " ++ timeStr)]
  let y := y - 30
  let box := draw_colored_box y (banner_of llm_summary).1
  let ops := ops ++ box.2
  let y := box.1
  let y := y - 10
  let sh := draw_section_header y ("📊 QUICK STATS")
  let ops := ops ++ sh.2
  let y := sh.1
  let accuracy : Nat := if grammar_errors * 3 ≤ 100 then 100 - grammar_errors * 3 else 0
  let total := matched.card + cv_only.card
  let alignPct : Nat := matched.card * 100 / max total 1
  let ops := ops ++ [Op.write y ("✓ Grammar Accuracy: " ++ natRepr accuracy ++ "%")]
  let y := y - 15
  let ops := ops ++ [Op.write y ("✓ Skills Discussed: " ++ natRepr matched.card ++ " out of "
    ++ natRepr total ++ " (" ++ natRepr alignPct ++ "%)")]
  let y := y - 15
  let ops := ops ++ [Op.write y ("✓ Total Entities Identified: " ++ natRepr entities.card)]
  let y := y - 15
  let ops := ops ++ [Op.write y ("✓ Grammar Errors Found: " ++ natRepr grammar_errors)]
  let y := y - 25
  let sh2 := draw_section_header y ("💼 DETAILED ASSESSMENT")
  let ops := ops ++ sh2.2
  let y := sh2.1
  let ops := ops ++ [Op.write y ("1. COMMUNICATION & LANGUAGE SKILLS")]
  let y := y - 15
  let wr1 := wrap_text y (comm_text grammar_errors) 9 20
  let ops := ops ++ wr1.2
  let y := wr1.1
  let y := y - 10
  let ops := ops ++ [Op.write y ("2. EXPERIENCE & SKILL ALIGNMENT")]
  let y := y - 15
  let wr2 := wrap_text y (exp_text matched.card cv_only.card) 9 20
  let ops := ops ++ wr2.2
  let y := wr2.1
  let y := y - 10
  let ops := ops ++ [Op.write y ("3. TECHNICAL KNOWLEDGE & CONFIDENCE")]
  let y := y - 15
  let wr3 := wrap_text y (tech_text matched.card) 9 20
  let ops := ops ++ wr3.2
  let y := wr3.1
  let y := y - 20
  let ops := if y < 150 then ops ++ [Op.newPage] else ops
  let y := if y < 150 then (792 - 40 : Int) else y
  let sh3 := draw_section_header y ("🎯 AREAS FOR IMPROVEMENT")
  let ops := ops ++ sh3.2
  let y := sh3.1
  let y := y - 10
  let st := (improvements_list grammar_errors matched.card cv_only.card).foldl
    improvementStep (y, ops, 1)
  let y := st.1
  let ops := st.2.1
  let ops := if y < 200 then ops ++ [Op.newPage] else ops
  let y := if y < 200 then (792 - 40 : Int) else y
  let sh4 := draw_section_header y ("✅ HR RECOMMENDATIONS")
  let ops := ops ++ sh4.2
  let y := sh4.1
  let y := y - 10
  let st2 := (recommendations_of llm_summary).foldl recStep (y, ops)
  let y := st2.1
  let ops := st2.2
  let y := y - 10
  let sh5 := draw_section_header y ("📋 NEXT STEPS")
  let ops := ops ++ sh5.2
  let y := sh5.1
  let y := y - 10
  let wr4 := wrap_text y (next_steps_of llm_summary) 9 15
  let ops := ops ++ wr4.2
  ops ++ [Op.footerWrite 25 ("CONFIDENTIAL - For HR Use Only"),
    Op.footerWrite 15 ("Assessment ID: " ++ assessId)]

/-- Every cursor-positioned write in an op trace lands at or above the
bottom margin y=50. -/
def cursor_writes_safe (ops : List Op) : Prop :=
  ∀ y s, Op.write y s ∈ ops → (50 : Int) ≤ y

/-- The success/failure report of `generate_beautiful_pdf` (main.py lines
365-380).  `draw` is the outcome of the drawing stage (`Except.error`
models any exception raised while drawing or saving, caught by the
`except` clause of the function); `fileExists` and `fileSize` model
`os.path.exists(filename)` and `os.path.getsize(filename)` after the save.
The source returns `True` exactly when no exception occurred and the file
exists; the size is printed but never checked. -/
def generate_pdf_result (draw : Except Unit Unit) (fileExists : Bool)
    (fileSize : Nat) : Bool :=
  match draw with
  | Except.error _ => false
  | Except.ok _ => if fileExists then true else false

/-- The normalized judgment string contains a line with the verdict marker. -/
def has_verdict_line (s : String) : Prop :=
  ∃ line ∈ splitLines s.data, ("VERDICT:").data <:+: line

/-- The texts of the cursor-positioned writes of an op trace, in order. -/
def writeTexts (ops : List Op) : List String :=
  ops.filterMap fun op => match op with
    | Op.write _ s => some s
    | _ => none

/-- Indicator of a pending (nonempty) wrap line. -/
def lineInd (l : List Char) : Nat := if l = [] then 0 else 1

/-! ## Helper lemmas -/

theorem string_append_assoc (a b c : String) : a ++ b ++ c = a ++ (b ++ c) := by
  apply String.ext
  simp [String.data_append]

/-- Decomposition: `fallback_response` splits as narrative prefix ++ verdict line. -/
theorem fallback_decomp (ge m : Nat) :
    fallback_response ge m =
      ("The candidate demonstrated professional communication abilities. Experience alignment is "
        ++ (if 3 < m then ("excellent") else if 1 < m then ("good") else ("limited"))
        ++ ". Technical competency appears "
        ++ (if 3 < m then ("strong") else ("adequate"))
        ++ ".\n\n")
      ++ ("VERDICT: " ++ heuristic_verdict ge m) := by
  unfold fallback_response
  have h : (".\n\nVERDICT: " : String) = ".\n\n" ++ "VERDICT: " := by decide
  rw [h]
  apply String.ext
  simp [String.data_append]

theorem suffix_data_append (a b : String) : b.data <:+ (a ++ b).data :=
  ⟨a.data, (String.data_append a b).symm⟩

/-- If `"VERDICT: " ++ v` is a suffix of `r`, then `"VERDICT:"` occurs in `r`. -/
theorem verdict_occurs_of_suffix (r : List Char) (v : String)
    (h : ("VERDICT: " ++ v).data <:+ r) : ("VERDICT:").data <:+: r := by
  obtain ⟨w, hw⟩ := h
  refine ⟨w, (" ").data ++ v.data, ?_⟩
  rw [← hw, String.data_append]
  have hx : ("VERDICT: ").data = ("VERDICT:").data ++ (" ").data := by decide
  rw [hx]
  simp [List.append_assoc]

theorem splitLines_ne_nil (l : List Char) : splitLines l ≠ [] := by
  induction l with
  | nil => simp [splitLines]
  | cons c cs ih =>
    by_cases h : c = '\n'
    · simp [splitLines, h]
    · cases hsl : splitLines cs with
      | nil => exact absurd hsl ih
      | cons hd tl => simp [splitLines, h, hsl]

/-- A newline-free prefix of `l` is a prefix of the first line of `l`. -/
theorem prefix_head_splitLines :
    ∀ (l p : List Char), (∀ c ∈ p, c ≠ '\n') → p <+: l →
      ∃ hd tl, splitLines l = hd :: tl ∧ p <+: hd := by
  intro l
  induction l with
  | nil =>
    intro p _ hpre
    have hp : p = [] := List.prefix_nil.mp hpre
    subst hp
    exact ⟨[], [], rfl, ⟨_, rfl⟩⟩
  | cons c cs ih =>
    intro p hp hpre
    cases p with
    | nil =>
      obtain ⟨hd, tl, h⟩ := List.exists_cons_of_ne_nil (splitLines_ne_nil (c :: cs))
      exact ⟨hd, tl, h, ⟨_, rfl⟩⟩
    | cons d p2 =>
      obtain ⟨hdc, hp2⟩ := List.cons_prefix_cons.mp hpre
      have hc : d ≠ '\n' := hp d (List.mem_cons_self _ _)
      obtain ⟨hd, tl, hsl, hpre2⟩ :=
        ih p2 (fun x hx => hp x (List.mem_cons_of_mem _ hx)) hp2
      subst hdc
      refine ⟨d :: hd, tl, ?_, ?_⟩
      · simp [splitLines, hc, hsl]
      · exact List.cons_prefix_cons.mpr ⟨rfl, hpre2⟩

/-- A newline-free infix of `l` is an infix of one of the lines of `l`. -/
theorem infix_line_of_splitLines :
    ∀ (l p : List Char), (∀ c ∈ p, c ≠ '\n') → p <:+: l →
      ∃ line ∈ splitLines l, p <:+: line := by
  intro l
  induction l with
  | nil =>
    intro p _ h
    have hp : p = [] := by simpa using h
    subst hp
    exact ⟨[], by simp [splitLines], [], [], rfl⟩
  | cons c cs ih =>
    intro p hp h
    rcases List.infix_cons_iff.mp h with hpre | hinf
    · obtain ⟨hd, tl, hsl, hpre2⟩ := prefix_head_splitLines (c :: cs) p hp hpre
      obtain ⟨t, ht⟩ := hpre2
      exact ⟨hd, by simp [hsl], [], t, by simpa using ht⟩
    · obtain ⟨line, hmem, hinf2⟩ := ih p hp hinf
      by_cases hc : c = '\n'
      · exact ⟨line, by simp [splitLines, hc, hmem], hinf2⟩
      · cases hsl : splitLines cs with
        | nil => exact absurd hsl (splitLines_ne_nil cs)
        | cons hd tl =>
          rw [hsl] at hmem
          rcases List.mem_cons.mp hmem with hline | hmem2
          · subst hline
            obtain ⟨s, t, hst⟩ := hinf2
            refine ⟨c :: line, by simp [splitLines, hc, hsl], c :: s, t, ?_⟩
            simpa using hst
          · exact ⟨line, by simp [splitLines, hc, hsl, hmem2], hinf2⟩

theorem has_verdict_line_of_occurs (s : String)
    (h : ("VERDICT:").data <:+: s.data) : has_verdict_line s :=
  infix_line_of_splitLines s.data _ (by decide) h

/-! ## Claim theorems -/

/-- C1: the verdict heuristic agrees with the spec-stated precedence
(grammarErrors > 15 ⇒ REJECT first, then grammarErrors < 5 ∧ matched ≥ 3 ⇒
HIRE, otherwise REVIEW/MAYBE), first match winning; in particular
grammarErrors=20 gives REJECT for every matchedCount, (2,4) gives HIRE and
(7,1) gives MAYBE. -/
theorem spec_c1_verdict_precedence :
    (∀ ge mc : Nat, heuristic_verdict ge mc = spec_precedence_verdict ge mc) ∧
    (∀ mc : Nat, heuristic_verdict 20 mc = "REJECT") ∧
    heuristic_verdict 2 4 = "HIRE" ∧ heuristic_verdict 7 1 = "MAYBE" := by
  refine ⟨fun ge mc => ?_, fun mc => ?_, by decide, by decide⟩
  · unfold heuristic_verdict spec_precedence_verdict
    split_ifs <;> first | rfl | omega
  · unfold heuristic_verdict
    split_ifs <;> first | rfl | omega

/-- C3: `compare_entities A B` returns matched = A ∩ B and
unmentioned = B − A; matched and unmentioned are disjoint, and empty
inputs yield empty outputs. -/
theorem spec_c3_compare_entities :
    ∀ A B : Finset Entity,
      (compare_entities A B).1 = A ∩ B ∧
      (compare_entities A B).2 = B \ A ∧
      (compare_entities A B).1 ∩ (compare_entities A B).2 = ∅ ∧
      compare_entities ∅ ∅ = (∅, ∅) := by
  intro A B
  refine ⟨rfl, rfl, ?_, ?_⟩
  · ext x
    simp [compare_entities]
    tauto
  · simp [compare_entities]

/-- C9: `compare_entities` partitions the CV entity set: matched ∪
unmentioned = B with the two parts disjoint, and entities present only in
the transcript (A \ B) appear in neither output. -/
theorem spec_c9_cv_partition :
    ∀ A B : Finset Entity,
      (compare_entities A B).1 ∪ (compare_entities A B).2 = B ∧
      (compare_entities A B).1 ∩ (compare_entities A B).2 = ∅ ∧
      (A \ B) ∩ ((compare_entities A B).1 ∪ (compare_entities A B).2) = ∅ := by
  intro A B
  refine ⟨?_, ?_, ?_⟩
  · ext x
    simp [compare_entities]
    tauto
  · ext x
    simp [compare_entities]
    tauto
  · ext x
    simp [compare_entities]
    tauto

/-- C2: the judgment normalizer (total by construction, as the source
catches every exception) always returns text containing a line with the
substring `VERDICT:`, and whenever the external judge is unavailable,
raising, or its response is empty/undersized, the returned text ends with
the verdict line carrying exactly the heuristic verdict for the same
grammar-error and matched counts. -/
theorem spec_c2_normalizer :
    ∀ (judge : Option (String → Except Unit String)) (transcript : String)
      (grammar_errors : Nat) (matched missing : Finset Entity),
      has_verdict_line (get_llm_judgment judge transcript grammar_errors matched missing) ∧
      (judge_fallback_case judge
          (judgment_prompt transcript grammar_errors matched.card missing.card) →
        ("VERDICT: " ++ heuristic_verdict grammar_errors matched.card).data <:+
          (get_llm_judgment judge transcript grammar_errors matched missing).data) := by
  intro judge transcript ge matched missing
  have hfb : ("VERDICT: " ++ heuristic_verdict ge matched.card).data <:+
      (fallback_response ge matched.card).data := by
    rw [fallback_decomp ge matched.card]
    exact suffix_data_append _ _
  have hfbline : has_verdict_line (fallback_response ge matched.card) :=
    has_verdict_line_of_occurs _ (verdict_occurs_of_suffix _ _ hfb)
  cases judge with
  | none => exact ⟨hfbline, fun _ => hfb⟩
  | some j =>
    cases hj : j (judgment_prompt transcript ge matched.card missing.card) with
    | error e =>
      have hr : get_llm_judgment (some j) transcript ge matched missing =
          fallback_response ge matched.card := by
        simp [get_llm_judgment, hj]
      rw [hr]
      exact ⟨hfbline, fun _ => hfb⟩
    | ok a =>
      by_cases hlen : a ≠ "" ∧ 30 < a.length
      · have hnofb : ¬ judge_fallback_case (some j)
            (judgment_prompt transcript ge matched.card missing.card) := by
          simp only [judge_fallback_case, hj]
          exact fun h => h hlen
        by_cases hv : ("VERDICT:").data <:+: a.data
        · have hr : get_llm_judgment (some j) transcript ge matched missing = a := by
            simp [get_llm_judgment, hj, hlen, hv]
          rw [hr]
          exact ⟨has_verdict_line_of_occurs _ hv, fun h => absurd h hnofb⟩
        · by_cases hh : ("HIRE").data <:+: a.toUpper.data
          · have hr : get_llm_judgment (some j) transcript ge matched missing =
                a ++ "\n\nVERDICT: HIRE" := by
              simp [get_llm_judgment, hj, hlen, hv, hh]
            have he : (a ++ "\n\nVERDICT: HIRE" : String) =
                (a ++ "\n\n") ++ ("VERDICT: " ++ "HIRE") := by
              rw [string_append_assoc]
              congr 1
            rw [hr, he]
            refine ⟨has_verdict_line_of_occurs _
              (verdict_occurs_of_suffix _ _ (suffix_data_append _ _)),
              fun h => absurd h hnofb⟩
          · have hr : get_llm_judgment (some j) transcript ge matched missing =
                a ++ "\n\nVERDICT: REJECT" := by
              simp [get_llm_judgment, hj, hlen, hv, hh]
            have he : (a ++ "\n\nVERDICT: REJECT" : String) =
                (a ++ "\n\n") ++ ("VERDICT: " ++ "REJECT") := by
              rw [string_append_assoc]
              congr 1
            rw [hr, he]
            refine ⟨has_verdict_line_of_occurs _
              (verdict_occurs_of_suffix _ _ (suffix_data_append _ _)),
              fun h => absurd h hnofb⟩
      · have hr : get_llm_judgment (some j) transcript ge matched missing =
            fallback_response ge matched.card := by
          simp only [get_llm_judgment, hj]
          rw [if_neg hlen]
        rw [hr]
        exact ⟨hfbline, fun _ => hfb⟩

/-- Witness for C2 at a concrete input: absent judge, zero counts. -/
theorem spec_c2_normalizer_witness :
    has_verdict_line (get_llm_judgment none ("") 0 ∅ ∅) ∧
      ("VERDICT: " ++ heuristic_verdict 0 (∅ : Finset Entity).card).data <:+
        (get_llm_judgment none ("") 0 ∅ ∅).data :=
  ⟨(spec_c2_normalizer none ("") 0 ∅ ∅).1,
   (spec_c2_normalizer none ("") 0 ∅ ∅).2 trivial⟩

/-- C4: for a judge response that is non-empty and longer than the
30-character threshold, the normalizer returns it as-is when it already
contains the verdict marker, and otherwise appends `VERDICT: HIRE` when the
uppercased text contains the acceptance word and `VERDICT: REJECT`
otherwise; in all three cases the original response is a prefix of the
returned text. -/
theorem spec_c4_long_response :
    ∀ (a transcript : String) (grammar_errors : Nat)
      (matched missing : Finset Entity),
      a ≠ "" → 30 < a.length →
      get_llm_judgment (some fun _ => Except.ok a) transcript grammar_errors
          matched missing =
        (if ("VERDICT:").data <:+: a.data then a
         else if ("HIRE").data <:+: a.toUpper.data then a ++ "\n\nVERDICT: HIRE"
         else a ++ "\n\nVERDICT: REJECT") ∧
      a.data <+:
        (get_llm_judgment (some fun _ => Except.ok a) transcript grammar_errors
          matched missing).data := by
  intro a transcript ge matched missing h1 h2
  have hr : get_llm_judgment (some fun _ => Except.ok a) transcript ge matched missing =
      (if ("VERDICT:").data <:+: a.data then a
       else if ("HIRE").data <:+: a.toUpper.data then a ++ "\n\nVERDICT: HIRE"
       else a ++ "\n\nVERDICT: REJECT") := by
    simp only [get_llm_judgment]
    rw [if_pos ⟨h1, h2⟩]
  refine ⟨hr, ?_⟩
  rw [hr]
  split_ifs
  · exact List.prefix_refl _
  · rw [String.data_append]
    exact List.prefix_append _ _
  · rw [String.data_append]
    exact List.prefix_append _ _

/-- Witness for C4 at a concrete 38-character response without a verdict
token or acceptance word: the response is kept as a prefix of the result. -/
theorem spec_c4_long_response_witness :
    ("An unusually strong candidate overall.").data <+:
      (get_llm_judgment (some fun _ => Except.ok ("An unusually strong candidate overall."))
        ("") 0 ∅ ∅).data :=
  (spec_c4_long_response ("An unusually strong candidate overall.") ("") 0 ∅ ∅
    (by decide) (by decide)).2

/-- C5: banner color/label, recommendation list and next-steps text are all
selected by the single containment-derived verdict: HIRE gives the green
banner with the HIRE-branch lists, REJECT the red banner with the
REJECT-branch lists, REVIEW the amber banner with the conditional-review
recommendations (next steps share the rejection branch); exactly one of
the three fixed recommendation lists is rendered. -/
theorem spec_c5_verdict_selection :
    ∀ llm : String,
      banner_of llm = (match derived_verdict llm with
        | Verdict.HIRE => ("VERDICT: ✓ HIRE", (0.2 : ℚ), (0.8 : ℚ), (0.2 : ℚ))
        | Verdict.REJECT => ("VERDICT: ✗ REJECT", (0.9 : ℚ), (0.2 : ℚ), (0.2 : ℚ))
        | Verdict.REVIEW => ("VERDICT: ◆ FURTHER REVIEW", (0.9 : ℚ), (0.7 : ℚ), (0.1 : ℚ))) ∧
      recommendations_of llm = (match derived_verdict llm with
        | Verdict.HIRE => hire_recommendations
        | Verdict.REJECT => reject_recommendations
        | Verdict.REVIEW => review_recommendations) ∧
      next_steps_of llm = (match derived_verdict llm with
        | Verdict.HIRE => hire_steps
        | Verdict.REJECT => reject_steps
        | Verdict.REVIEW => reject_steps) ∧
      ((recommendations_of llm = hire_recommendations ∧
          recommendations_of llm ≠ reject_recommendations ∧
          recommendations_of llm ≠ review_recommendations) ∨
       (recommendations_of llm = reject_recommendations ∧
          recommendations_of llm ≠ hire_recommendations ∧
          recommendations_of llm ≠ review_recommendations) ∨
       (recommendations_of llm = review_recommendations ∧
          recommendations_of llm ≠ hire_recommendations ∧
          recommendations_of llm ≠ reject_recommendations)) := by
  intro llm
  have hd1 : hire_recommendations ≠ reject_recommendations := by decide
  have hd2 : hire_recommendations ≠ review_recommendations := by decide
  have hd3 : reject_recommendations ≠ review_recommendations := by decide
  unfold banner_of recommendations_of next_steps_of derived_verdict
  cases h1 : mentions_hire llm && !mentions_reject llm with
  | true => simp [hd1, hd2]
  | false =>
    cases h2 : mentions_reject llm with
    | true => simp [Ne.symm hd1, hd3]
    | false => simp [Ne.symm hd2, Ne.symm hd3]

/-- C8 counterexample: at the concrete outcome "drawing succeeded, file
exists, file size 0" the code reports success although the claimed success
condition (artifact exists and is non-empty) is false — the source checks
only `os.path.exists`, never the size. -/
theorem spec_c8_counterexample :
    generate_pdf_result (Except.ok ()) true 0 = true ∧
      ¬(true = true ∧ (0 : Nat) ≠ 0) := by
  exact ⟨rfl, by simp⟩

/-- C8 amended: generation reports success iff the drawing stage raised no
exception and the artifact exists after the write (its size is printed but
not checked), and any drawing-stage failure reports failure rather than
raising. -/
theorem spec_c8_amended_success_condition :
    (∀ (fileExists : Bool) (fileSize : Nat),
      generate_pdf_result (Except.error ()) fileExists fileSize = false) ∧
    (∀ (draw : Except Unit Unit) (fileExists : Bool) (fileSize : Nat),
      generate_pdf_result draw fileExists fileSize = true ↔
        draw = Except.ok () ∧ fileExists = true) := by
  constructor
  · intro e n
    rfl
  · intro d e n
    cases d with
    | error u => cases u; simp [generate_pdf_result]
    | ok u => cases u; cases e <;> simp [generate_pdf_result]

/-- Witness for C8 (amended) at a concrete input: successful draw and an
existing artifact report success. -/
theorem spec_c8_amended_witness :
    generate_pdf_result (Except.ok ()) true 5 = true :=
  (spec_c8_amended_success_condition.2 (Except.ok ()) true 5).mpr ⟨rfl, rfl⟩

/-- C10: the fallback narrative is a function of matchedCount and the
heuristic verdict only — the communication sentence is fixed, the alignment
descriptor is chosen by matchedCount alone (>3 excellent, >1 good, else
limited), and the technical descriptor is only ever strong or adequate. -/
theorem spec_c10_fallback_narrative :
    ∀ grammar_errors grammar_errors2 matchedCount : Nat,
      (heuristic_verdict grammar_errors matchedCount =
          heuristic_verdict grammar_errors2 matchedCount →
        fallback_response grammar_errors matchedCount =
          fallback_response grammar_errors2 matchedCount) ∧
      ∃ t a : String, (t = "strong" ∨ t = "adequate") ∧
        a = (if 3 < matchedCount then ("excellent")
             else if 1 < matchedCount then ("good") else ("limited")) ∧
        fallback_response grammar_errors matchedCount =
          "The candidate demonstrated professional communication abilities. Experience alignment is "
            ++ a ++ ". Technical competency appears " ++ t ++ ".\n\nVERDICT: "
            ++ heuristic_verdict grammar_errors matchedCount := by
  intro ge ge2 m
  constructor
  · intro h
    unfold fallback_response
    rw [h]
  · refine ⟨if 3 < m then ("strong") else ("adequate"), _, ?_, rfl, rfl⟩
    split_ifs <;> simp

/-- Witness for C10 at concrete inputs 0 and 1 grammar errors (equal
heuristic verdicts), matchedCount 0. -/
theorem spec_c10_fallback_narrative_witness :
    fallback_response 0 0 = fallback_response 1 0 :=
  (spec_c10_fallback_narrative 0 1 0).1 (by decide)

/-! ## Word-wrap lemmas -/

theorem joinSp_cons_cons (w v : List Char) (rest : List (List Char)) :
    joinSp (w :: v :: rest) = w ++ ' ' :: joinSp (v :: rest) := rfl

theorem joinSp_ne_nil (ws : List (List Char)) (h : ws ≠ []) (hw : ∀ w ∈ ws, w ≠ []) :
    joinSp ws ≠ [] := by
  match ws with
  | [] => exact absurd rfl h
  | [w] => simpa [joinSp] using hw w (by simp)
  | w :: v :: rest => simp [joinSp_cons_cons]

theorem joinSp_cons_ne (a : List Char) (l : List (List Char)) (h : l ≠ []) :
    joinSp (a :: l) = a ++ ' ' :: joinSp l := by
  cases l with
  | nil => exact absurd rfl h
  | cons b t => rfl

theorem joinSp_append (as bs : List (List Char)) (ha : as ≠ []) (hb : bs ≠ []) :
    joinSp (as ++ bs) = joinSp as ++ ' ' :: joinSp bs := by
  induction as with
  | nil => exact absurd rfl ha
  | cons v rest ih =>
    cases rest with
    | nil =>
      have e1 : ([v] : List (List Char)) ++ bs = v :: bs := rfl
      rw [e1, joinSp_cons_ne v bs hb]
      rfl
    | cons u t =>
      have h2 := ih (by simp)
      have e1 : (v :: u :: t) ++ bs = v :: ((u :: t) ++ bs) := rfl
      rw [e1, joinSp_cons_ne v _ (by simp), h2, joinSp_cons_ne v (u :: t) (by simp)]
      simp [List.append_assoc]

theorem joinSp_append_singleton (ws : List (List Char)) (h : ws ≠ []) (w : List Char) :
    joinSp (ws ++ [w]) = joinSp ws ++ ' ' :: w := by
  have h2 := joinSp_append ws [w] h (by simp)
  simpa [joinSp] using h2

theorem joinSp_map_joinSp (gs : List (List (List Char))) (h : ∀ g ∈ gs, g ≠ []) :
    joinSp (gs.map joinSp) = joinSp gs.flatten := by
  induction gs with
  | nil => rfl
  | cons g rest ih =>
    cases rest with
    | nil => simp [joinSp]
    | cons g2 t =>
      have hg : g ≠ [] := h g (by simp)
      have hg2 : g2 ≠ [] := h g2 (by simp)
      have hrest := ih (fun x hx => h x (by simp [hx]))
      have hfl : (g2 :: t).flatten ≠ [] := by
        simp only [List.flatten_cons, ne_eq, List.append_eq_nil]
        exact fun hc => hg2 hc.1
      have e1 : (g :: g2 :: t).map joinSp = joinSp g :: (g2 :: t).map joinSp := rfl
      have e2 : (g :: g2 :: t).flatten = g ++ (g2 :: t).flatten := rfl
      rw [e1, e2, joinSp_cons_ne (joinSp g) _ (by simp), hrest,
        joinSp_append g (g2 :: t).flatten hg hfl]

theorem takeWhile_dropWhile_append (p : Char → Bool) (w : List Char) :
    ∀ l : List Char, (∀ c ∈ w, p c = true) → (∀ d ds, l = d :: ds → p d = false) →
      (w ++ l).takeWhile p = w ∧ (w ++ l).dropWhile p = l := by
  induction w with
  | nil =>
    intro l _ hl
    cases l with
    | nil => simp
    | cons d ds => simp [List.takeWhile_cons, List.dropWhile_cons, hl d ds rfl]
  | cons c w2 ih =>
    intro l hw hl
    have hc : p c = true := hw c (by simp)
    obtain ⟨h1, h2⟩ := ih l (fun x hx => hw x (by simp [hx])) hl
    simp [List.takeWhile_cons, List.dropWhile_cons, hc, h1, h2]

theorem splitWords_cons_ws (c : Char) (l : List Char) (h : c.isWhitespace) :
    splitWords (c :: l) = splitWords l := by
  rw [splitWords, if_pos h]

theorem splitWords_prepend (w l : List Char) (hw : w ≠ [])
    (hwf : ∀ c ∈ w, ¬c.isWhitespace)
    (hl : ∀ d ds, l = d :: ds → d.isWhitespace) :
    splitWords (w ++ l) = w :: splitWords l := by
  cases w with
  | nil => exact absurd rfl hw
  | cons c w2 =>
    have hc : ¬(c.isWhitespace = true) := by simpa using hwf c (by simp)
    have hall : ∀ x ∈ w2, (fun d => !d.isWhitespace) x = true := by
      intro x hx
      simpa using hwf x (by simp [hx])
    have hstop : ∀ d ds, l = d :: ds → (fun d => !d.isWhitespace) d = false := by
      intro d ds hdl
      simpa using hl d ds hdl
    obtain ⟨ht, hd⟩ := takeWhile_dropWhile_append _ w2 l hall hstop
    rw [List.cons_append, splitWords, if_neg hc, ht, hd]

theorem splitWords_words : ∀ l, ∀ w ∈ splitWords l, w ≠ [] ∧ ∀ c ∈ w, ¬c.isWhitespace := by
  intro l
  induction l using splitWords.induct with
  | case1 => simp [splitWords]
  | case2 c cs hc ih =>
    intro w hw
    rw [splitWords, if_pos hc] at hw
    exact ih w hw
  | case3 c cs hc ih =>
    intro w hw
    rw [splitWords, if_neg hc] at hw
    rcases List.mem_cons.mp hw with rfl | hw2
    · refine ⟨by simp, ?_⟩
      intro x hx
      rcases List.mem_cons.mp hx with rfl | hx2
      · simpa using hc
      · have := List.mem_takeWhile_imp hx2
        simpa using this
    · exact ih w hw2

theorem splitWords_spaceJoin (ws : List (List Char))
    (h : ∀ w ∈ ws, w ≠ [] ∧ ∀ c ∈ w, ¬c.isWhitespace) :
    splitWords (joinSp ws) = ws := by
  induction ws with
  | nil => simp [joinSp, splitWords]
  | cons w rest ih =>
    obtain ⟨hw, hwf⟩ := h w (by simp)
    cases rest with
    | nil =>
      have h2 : splitWords (w ++ []) = w :: splitWords [] :=
        splitWords_prepend w [] hw hwf (by intro d ds hds; simp at hds)
      simpa [joinSp, splitWords] using h2
    | cons v t =>
      have hrest := ih (fun x hx => h x (by simp [hx]))
      have hpre := splitWords_prepend w (' ' :: joinSp (v :: t)) hw hwf (by
        intro d ds hds
        injection hds with h1 _
        rw [← h1]
        decide)
      rw [joinSp_cons_cons, hpre, splitWords_cons_ws ' ' _ (by decide), hrest]

theorem writeTexts_append (a b : List Op) :
    writeTexts (a ++ b) = writeTexts a ++ writeTexts b := by
  simp [writeTexts]

theorem writeTexts_newPage (a : List Op) :
    writeTexts (a ++ [Op.newPage]) = writeTexts a := by
  simp [writeTexts]

theorem writeTexts_write (a : List Op) (y : Int) (s : String) :
    writeTexts (a ++ [Op.write y s]) = writeTexts a ++ [s] := by
  simp [writeTexts]

theorem wrapStep_empty_line (size : Nat) (maxWidth : Int) (y : Int) (ops : List Op)
    (w : List Char) :
    wrapStep size maxWidth (y, [], ops) w =
      if y < 50 then (792 - 40, w, ops ++ [Op.newPage]) else (y, w, ops) := by
  unfold wrapStep
  simp

theorem wrapStep_nonempty_fit (size : Nat) (maxWidth : Int) (y : Int) (ops : List Op)
    (line w : List Char) (hline : line ≠ [])
    (hfit : ((line ++ ' ' :: w).length : Int) * (size : Int) < 2 * maxWidth) :
    wrapStep size maxWidth (y, line, ops) w =
      if y < 50 then (792 - 40, line ++ ' ' :: w, ops ++ [Op.newPage])
      else (y, line ++ ' ' :: w, ops) := by
  simp only [wrapStep, if_neg hline, if_pos hfit]

theorem wrapStep_nonempty_nofit (size : Nat) (maxWidth : Int) (y : Int) (ops : List Op)
    (line w : List Char) (hline : line ≠ [])
    (hfit : ¬(((line ++ ' ' :: w).length : Int) * (size : Int) < 2 * maxWidth)) :
    wrapStep size maxWidth (y, line, ops) w =
      if y - ((size : Int) + 3) < 50 then
        (792 - 40, w, (ops ++ [Op.write y (String.mk (line.take 110))]) ++ [Op.newPage])
      else (y - ((size : Int) + 3), w, ops ++ [Op.write y (String.mk (line.take 110))]) := by
  simp only [wrapStep, if_neg hline, if_neg hfit]

/-- Fold invariant of the wrap loop: the emitted write texts are exactly the
110-truncations of the space-joins of successive groups of the input words,
and the pending line is the space-join of the remaining group. -/
theorem wrap_fold_texts (size : Nat) (maxWidth : Int) :
    ∀ (ws : List (List Char)) (y : Int) (lw : List (List Char)) (ops : List Op),
      (∀ w ∈ lw, w ≠ []) → (∀ w ∈ ws, w ≠ []) →
      ∃ (groups : List (List (List Char))) (lw2 : List (List Char)),
        (∀ g ∈ groups, g ≠ []) ∧ (∀ w ∈ lw2, w ≠ []) ∧
        (ws.foldl (wrapStep size maxWidth) (y, joinSp lw, ops)).2.1 = joinSp lw2 ∧
        writeTexts (ws.foldl (wrapStep size maxWidth) (y, joinSp lw, ops)).2.2 =
          writeTexts ops ++ groups.map (fun g => String.mk ((joinSp g).take 110)) ∧
        groups.flatten ++ lw2 = lw ++ ws := by
  intro ws
  induction ws with
  | nil =>
    intro y lw ops hlw _
    exact ⟨[], lw, by simp, hlw, rfl, by simp, by simp⟩
  | cons w ws2 ih =>
    intro y lw ops hlw hws
    have hwne : w ≠ [] := hws w (by simp)
    have hws2 : ∀ x ∈ ws2, x ≠ [] := fun x hx => hws x (by simp [hx])
    have hsingle : ∀ x ∈ ([w] : List (List Char)), x ≠ [] := by simpa using hwne
    rw [List.foldl_cons]
    by_cases hlwnil : lw = []
    · subst hlwnil
      have hj : joinSp ([] : List (List Char)) = [] := rfl
      rw [hj, wrapStep_empty_line]
      by_cases hy : y < 50
      · rw [if_pos hy]
        obtain ⟨groups, lw2, hg, hlw2, hline, htexts, hflat⟩ :=
          ih (792 - 40) [w] (ops ++ [Op.newPage]) hsingle hws2
        exact ⟨groups, lw2, hg, hlw2, hline,
          htexts.trans (by rw [writeTexts_newPage]),
          by simpa using hflat⟩
      · rw [if_neg hy]
        obtain ⟨groups, lw2, hg, hlw2, hline, htexts, hflat⟩ :=
          ih y [w] ops hsingle hws2
        exact ⟨groups, lw2, hg, hlw2, hline, htexts, by simpa using hflat⟩
    · have hjne : joinSp lw ≠ [] := joinSp_ne_nil lw hlwnil hlw
      by_cases hfit : ((joinSp lw ++ ' ' :: w).length : Int) * (size : Int) < 2 * maxWidth
      · rw [wrapStep_nonempty_fit size maxWidth y ops (joinSp lw) w hjne hfit]
        have hcand : joinSp lw ++ ' ' :: w = joinSp (lw ++ [w]) :=
          (joinSp_append_singleton lw hlwnil w).symm
        have hlw3 : ∀ x ∈ lw ++ [w], x ≠ [] := by
          intro x hx
          rcases List.mem_append.mp hx with hx1 | hx2
          · exact hlw x hx1
          · rw [List.mem_singleton.mp hx2]
            exact hwne
        by_cases hy : y < 50
        · rw [if_pos hy, hcand]
          obtain ⟨groups, lw2, hg, hlw2, hline, htexts, hflat⟩ :=
            ih (792 - 40) (lw ++ [w]) (ops ++ [Op.newPage]) hlw3 hws2
          exact ⟨groups, lw2, hg, hlw2, hline,
            htexts.trans (by rw [writeTexts_newPage]),
            by rw [hflat]; simp⟩
        · rw [if_neg hy, hcand]
          obtain ⟨groups, lw2, hg, hlw2, hline, htexts, hflat⟩ :=
            ih y (lw ++ [w]) ops hlw3 hws2
          exact ⟨groups, lw2, hg, hlw2, hline, htexts, by rw [hflat]; simp⟩
      · rw [wrapStep_nonempty_nofit size maxWidth y ops (joinSp lw) w hjne hfit]
        have hgcons : ∀ groups, (∀ g ∈ groups, g ≠ []) →
            ∀ g ∈ (lw :: groups : List (List (List Char))), g ≠ [] := by
          intro groups hg g hg2
          rcases List.mem_cons.mp hg2 with rfl | hg3
          · exact hlwnil
          · exact hg g hg3
        by_cases hy : y - ((size : Int) + 3) < 50
        · rw [if_pos hy]
          obtain ⟨groups, lw2, hg, hlw2, hline, htexts, hflat⟩ :=
            ih (792 - 40) [w]
              ((ops ++ [Op.write y (String.mk ((joinSp lw).take 110))]) ++ [Op.newPage])
              hsingle hws2
          refine ⟨lw :: groups, lw2, hgcons groups hg, hlw2, hline, ?_, ?_⟩
          · refine htexts.trans ?_
            rw [writeTexts_newPage, writeTexts_write, List.map_cons]
            simp
          · simp only [List.flatten_cons, List.append_assoc, hflat]
            simp
        · rw [if_neg hy]
          obtain ⟨groups, lw2, hg, hlw2, hline, htexts, hflat⟩ :=
            ih (y - ((size : Int) + 3)) [w]
              (ops ++ [Op.write y (String.mk ((joinSp lw).take 110))])
              hsingle hws2
          refine ⟨lw :: groups, lw2, hgcons groups hg, hlw2, hline, ?_, ?_⟩
          · refine htexts.trans ?_
            rw [writeTexts_write, List.map_cons]
            simp
          · simp only [List.flatten_cons, List.append_assoc, hflat]
            simp

/-- Characterization of `wrap_text`: its emitted line texts are the 110-truncated
space-joins of a grouping of the input words. -/
theorem wrap_text_groups (y0 : Int) (text : String) (size indent : Nat) :
    ∃ fullGroups : List (List (List Char)),
      (∀ g ∈ fullGroups, g ≠ []) ∧
      writeTexts (wrap_text y0 text size indent).2 =
        fullGroups.map (fun g => String.mk ((joinSp g).take 110)) ∧
      fullGroups.flatten = splitWords text.data := by
  obtain ⟨groups, lw2, hg, hlw2, hline, htexts, hflat⟩ :=
    wrap_fold_texts size (612 - 80 - (indent : Int)) (splitWords text.data) y0 [] []
      (by simp) (fun w hw => (splitWords_words text.data w hw).1)
  simp only [List.nil_append] at hflat
  have hline2 : ((splitWords text.data).foldl
      (wrapStep size (612 - 80 - (indent : Int))) (y0, [], [])).2.1 = joinSp lw2 := hline
  have htexts2 : writeTexts ((splitWords text.data).foldl
      (wrapStep size (612 - 80 - (indent : Int))) (y0, [], [])).2.2 =
      groups.map (fun g => String.mk ((joinSp g).take 110)) := by
    refine Eq.trans ?_ (by simp [writeTexts] : writeTexts ([] : List Op) ++
      groups.map (fun g => String.mk ((joinSp g).take 110)) =
      groups.map (fun g => String.mk ((joinSp g).take 110)))
    exact htexts
  by_cases hnil : lw2 = []
  · subst hnil
    refine ⟨groups, hg, ?_, by simpa using hflat⟩
    simp only [wrap_text]
    have hcond : ((splitWords text.data).foldl
        (wrapStep size (612 - 80 - (indent : Int))) (y0, [], [])).2.1 = [] := hline2
    rw [if_pos hcond]
    exact htexts2
  · refine ⟨groups ++ [lw2], ?_, ?_, ?_⟩
    · intro g hg2
      rcases List.mem_append.mp hg2 with hg3 | hg4
      · exact hg g hg3
      · rw [List.mem_singleton.mp hg4]
        exact hnil
    · simp only [wrap_text]
      have hcond : ¬(((splitWords text.data).foldl
          (wrapStep size (612 - 80 - (indent : Int))) (y0, [], [])).2.1 = []) := by
        rw [hline2]
        exact joinSp_ne_nil lw2 hnil hlw2
      rw [if_neg hcond, writeTexts_write, htexts2, hline2]
      simp
    · rw [List.flatten_append]
      simpa using hflat

/-- C7: the wrapper never drops words — for every input, font size and
indent there is a list of full (untruncated) lines whose 110-character
truncations are exactly the emitted line texts, and whose space-join has
exactly the words of the original text (i.e. concatenating the emitted
lines and collapsing whitespace reproduces the input up to the fixed
110-character per-line truncation bound). -/
theorem spec_c7_wrap_no_word_loss :
    ∀ (y0 : Int) (text : String) (size indent : Nat),
      ∃ fullLines : List (List Char),
        writeTexts (wrap_text y0 text size indent).2 =
          fullLines.map (fun l => String.mk (l.take 110)) ∧
        splitWords (joinSp fullLines) = splitWords text.data := by
  intro y0 text size indent
  obtain ⟨gs, hg, htexts, hflat⟩ := wrap_text_groups y0 text size indent
  refine ⟨gs.map joinSp, ?_, ?_⟩
  · rw [htexts, List.map_map]
    rfl
  · rw [joinSp_map_joinSp gs hg, hflat,
      splitWords_spaceJoin _ (splitWords_words text.data)]

/-- Wrap-loop invariant: every emitted write sits at or above the bottom
margin, and a pending line implies the cursor is above the margin (the
page-break check at the end of each iteration enforces this). -/
theorem wrap_fold_writes_safe (size : Nat) (maxWidth : Int) :
    ∀ (ws : List (List Char)) (st : Int × List Char × List Op),
      (∀ y s, Op.write y s ∈ st.2.2 → (50 : Int) ≤ y) →
      (st.2.1 ≠ [] → (50 : Int) ≤ st.1) →
      (∀ y s, Op.write y s ∈ (ws.foldl (wrapStep size maxWidth) st).2.2 → (50 : Int) ≤ y) ∧
      ((ws.foldl (wrapStep size maxWidth) st).2.1 ≠ [] →
        (50 : Int) ≤ (ws.foldl (wrapStep size maxWidth) st).1) := by
  intro ws
  induction ws with
  | nil => exact fun st h1 h2 => ⟨h1, h2⟩
  | cons w ws2 ih =>
    intro st h1 h2
    obtain ⟨y, line, ops⟩ := st
    rw [List.foldl_cons]
    by_cases hline : line = []
    · subst hline
      rw [wrapStep_empty_line]
      by_cases hy : y < 50
      · rw [if_pos hy]
        refine ih _ ?_ ?_
        · intro y2 s2 hmem
          rcases List.mem_append.mp hmem with hm | hm
          · exact h1 y2 s2 hm
          · simp at hm
        · intro _
          omega
      · rw [if_neg hy]
        exact ih _ h1 (fun _ => by omega)
    · by_cases hfit : ((line ++ ' ' :: w).length : Int) * (size : Int) < 2 * maxWidth
      · rw [wrapStep_nonempty_fit size maxWidth y ops line w hline hfit]
        by_cases hy : y < 50
        · rw [if_pos hy]
          refine ih _ ?_ (fun _ => by omega)
          intro y2 s2 hmem
          rcases List.mem_append.mp hmem with hm | hm
          · exact h1 y2 s2 hm
          · simp at hm
        · rw [if_neg hy]
          exact ih _ h1 (fun _ => by omega)
      · rw [wrapStep_nonempty_nofit size maxWidth y ops line w hline hfit]
        have hy50 : (50 : Int) ≤ y := h2 hline
        by_cases hy : y - ((size : Int) + 3) < 50
        · rw [if_pos hy]
          refine ih _ ?_ (fun _ => by omega)
          intro y2 s2 hmem
          rcases List.mem_append.mp hmem with hm | hm
          · rcases List.mem_append.mp hm with hm2 | hm2
            · exact h1 y2 s2 hm2
            · have he := List.mem_singleton.mp hm2
              injection he with e1 e2
              omega
          · simp at hm
        · rw [if_neg hy]
          refine ih _ ?_ (fun _ => by omega)
          intro y2 s2 hmem
          rcases List.mem_append.mp hmem with hm | hm
          · exact h1 y2 s2 hm
          · have := List.mem_singleton.mp hm
            injection this with e1 e2
            omega

/-- Every write emitted by `wrap_text` lands at or above the bottom margin,
for every starting cursor position. -/
theorem wrap_text_writes_safe (y0 : Int) (text : String) (size indent : Nat) :
    ∀ y s, Op.write y s ∈ (wrap_text y0 text size indent).2 → (50 : Int) ≤ y := by
  intro y s hmem
  obtain ⟨h1, h2⟩ := wrap_fold_writes_safe size (612 - 80 - (indent : Int))
    (splitWords text.data) (y0, [], []) (by simp) (by simp)
  simp only [wrap_text] at hmem
  split at hmem
  · exact h1 y s hmem
  · next hne =>
    rcases List.mem_append.mp hmem with hm | hm
    · exact h1 y s hm
    · have he := List.mem_singleton.mp hm
      injection he with e1 e2
      rw [e1]
      exact h2 hne


theorem lineInd_le_one (l : List Char) : lineInd l ≤ 1 := by
  unfold lineInd
  split <;> omega

theorem lineInd_nil : lineInd [] = 0 := rfl

theorem lineInd_of_ne (l : List Char) (h : l ≠ []) : lineInd l = 1 := by
  unfold lineInd
  rw [if_neg h]

/-- Budget invariant of the wrap loop: starting at or below the top margin,
the cursor drops by at most `size + 3` per input word plus one pending-line
flush, and never exceeds the top margin. -/
theorem wrap_fold_budget (size : Nat) (maxWidth : Int) :
    ∀ (ws : List (List Char)) (y : Int) (line : List Char) (ops : List Op), y ≤ 752 →
      ∃ k : Nat,
        k + lineInd (ws.foldl (wrapStep size maxWidth) (y, line, ops)).2.1 ≤
          ws.length + lineInd line ∧
        y - (k : Int) * ((size : Int) + 3) ≤ (ws.foldl (wrapStep size maxWidth) (y, line, ops)).1 ∧
        (ws.foldl (wrapStep size maxWidth) (y, line, ops)).1 ≤ 752 := by
  intro ws
  induction ws with
  | nil =>
    intro y line ops hy
    refine ⟨0, ?_, by simp, by simpa using hy⟩
    simp
  | cons w ws2 ih =>
    intro y line ops hy
    rw [List.foldl_cons]
    have hcast : ∀ k : Nat, ((k + 1 : Nat) : Int) * ((size : Int) + 3) =
        (k : Int) * ((size : Int) + 3) + ((size : Int) + 3) := by
      intro k
      push_cast
      ring
    by_cases hline : line = []
    · subst hline
      rw [wrapStep_empty_line]
      by_cases hy2 : y < 50
      · rw [if_pos hy2]
        obtain ⟨k, hk, hlow, hup⟩ := ih (792 - 40) w (ops ++ [Op.newPage]) (by norm_num)
        refine ⟨k, ?_, ?_, hup⟩
        · have hb := lineInd_le_one w
          simp only [List.length_cons, lineInd_nil]
          omega
        · have hk0 : (0 : Int) ≤ (k : Int) * ((size : Int) + 3) := by positivity
          linarith [hlow]
      · rw [if_neg hy2]
        obtain ⟨k, hk, hlow, hup⟩ := ih y w ops hy
        refine ⟨k, ?_, hlow, hup⟩
        have hb := lineInd_le_one w
        simp only [List.length_cons, lineInd_nil]
        omega
    · by_cases hfit : ((line ++ ' ' :: w).length : Int) * (size : Int) < 2 * maxWidth
      · rw [wrapStep_nonempty_fit size maxWidth y ops line w hline hfit]
        by_cases hy2 : y < 50
        · rw [if_pos hy2]
          obtain ⟨k, hk, hlow, hup⟩ := ih (792 - 40) (line ++ ' ' :: w) (ops ++ [Op.newPage])
            (by norm_num)
          refine ⟨k, ?_, ?_, hup⟩
          · have hb := lineInd_le_one (line ++ ' ' :: w)
            have hc := lineInd_of_ne line hline
            simp only [List.length_cons]
            omega
          · have hk0 : (0 : Int) ≤ (k : Int) * ((size : Int) + 3) := by positivity
            linarith [hlow]
        · rw [if_neg hy2]
          obtain ⟨k, hk, hlow, hup⟩ := ih y (line ++ ' ' :: w) ops hy
          refine ⟨k, ?_, hlow, hup⟩
          have hb := lineInd_le_one (line ++ ' ' :: w)
          have hc := lineInd_of_ne line hline
          simp only [List.length_cons]
          omega
      · rw [wrapStep_nonempty_nofit size maxWidth y ops line w hline hfit]
        by_cases hy2 : y - ((size : Int) + 3) < 50
        · rw [if_pos hy2]
          obtain ⟨k, hk, hlow, hup⟩ := ih (792 - 40) w
            (ops ++ [Op.write y (String.mk (line.take 110))] ++ [Op.newPage]) (by norm_num)
          refine ⟨k + 1, ?_, ?_, hup⟩
          · have hb := lineInd_le_one w
            have hc := lineInd_of_ne line hline
            simp only [List.length_cons]
            omega
          · rw [hcast k]
            have hk0 : (0 : Int) ≤ (k : Int) * ((size : Int) + 3) := by positivity
            linarith [hlow]
        · rw [if_neg hy2]
          obtain ⟨k, hk, hlow, hup⟩ := ih (y - ((size : Int) + 3)) w
            (ops ++ [Op.write y (String.mk (line.take 110))]) (by omega)
          refine ⟨k + 1, ?_, ?_, hup⟩
          · have hb := lineInd_le_one w
            have hc := lineInd_of_ne line hline
            simp only [List.length_cons]
            omega
          · rw [hcast k]
            linarith [hlow]

/-- Cursor bounds for a whole `wrap_text` call: at most `size + 3` of
descent per input word, and never above the top margin. -/
theorem wrap_text_y_bounds (y0 : Int) (text : String) (size indent : Nat) (hy : y0 ≤ 752) :
    y0 - ((splitWords text.data).length : Int) * ((size : Int) + 3) ≤
      (wrap_text y0 text size indent).1 ∧ (wrap_text y0 text size indent).1 ≤ 752 := by
  obtain ⟨k, hk, hlow, hup⟩ := wrap_fold_budget size (612 - 80 - (indent : Int))
    (splitWords text.data) y0 [] [] hy
  simp only [lineInd_nil] at hk
  have hs0 : (0 : Int) ≤ (size : Int) + 3 := by positivity
  have hmono : ∀ a b : Nat, a ≤ b →
      (a : Int) * ((size : Int) + 3) ≤ (b : Int) * ((size : Int) + 3) := by
    intro a b hab
    have : (a : Int) ≤ (b : Int) := by exact_mod_cast hab
    exact mul_le_mul_of_nonneg_right this hs0
  simp only [wrap_text]
  split
  · next hnil =>
    have h0 : lineInd ((splitWords text.data).foldl
        (wrapStep size (612 - 80 - (indent : Int))) (y0, [], [])).2.1 = 0 := by
      rw [hnil]
      rfl
    rw [h0] at hk
    refine ⟨?_, hup⟩
    have := hmono k (splitWords text.data).length (by omega)
    linarith [hlow]
  · next hne =>
    have h1 : lineInd ((splitWords text.data).foldl
        (wrapStep size (612 - 80 - (indent : Int))) (y0, [], [])).2.1 = 1 :=
      lineInd_of_ne _ hne
    rw [h1] at hk
    dsimp only
    constructor
    · have := hmono (k + 1) (splitWords text.data).length (by omega)
      have hc : ((k + 1 : Nat) : Int) * ((size : Int) + 3) =
          (k : Int) * ((size : Int) + 3) + ((size : Int) + 3) := by
        push_cast
        ring
      rw [hc] at this
      linarith [hlow]
    · linarith [hup]

theorem dropWhile_head_false (p : Char → Bool) :
    ∀ (l : List Char) (r : Char) (rs : List Char), l.dropWhile p = r :: rs → p r = false := by
  intro l
  induction l with
  | nil =>
    intro r rs h
    simp at h
  | cons a t ih =>
    intro r rs h
    rw [List.dropWhile_cons] at h
    by_cases hp : p a
    · rw [if_pos hp] at h
      exact ih r rs h
    · rw [if_neg hp] at h
      injection h with h1 _
      rw [← h1]
      exact Bool.of_not_eq_true hp

/-- The number of words is at most the whitespace count plus one. -/
theorem splitWords_length_le_aux :
    ∀ (n : Nat) (l : List Char), l.length ≤ n →
      (splitWords l).length ≤ l.countP (fun c => c.isWhitespace) + 1 := by
  intro n
  induction n with
  | zero =>
    intro l hl
    have : l = [] := List.eq_nil_of_length_eq_zero (by omega)
    subst this
    simp [splitWords]
  | succ n ih =>
    intro l hl
    cases l with
    | nil => simp [splitWords]
    | cons c cs =>
      have hlen2 : cs.length ≤ n := by
        simp only [List.length_cons] at hl
        omega
      by_cases hc : c.isWhitespace
      · rw [splitWords_cons_ws c cs hc]
        have h2 := ih cs hlen2
        rw [List.countP_cons]
        have hcc : (fun c => c.isWhitespace) c = true := hc
        simp only [hcc, if_pos]
        omega
      · rw [splitWords, if_neg hc]
        simp only [List.length_cons]
        have hcount : (c :: cs).countP (fun c => c.isWhitespace) =
            cs.countP (fun c => c.isWhitespace) := by
          rw [List.countP_cons]
          simp [hc]
        rw [hcount]
        cases hdrop : cs.dropWhile (fun d => !d.isWhitespace) with
        | nil =>
          simp [splitWords]
        | cons r rs =>
          have hr : r.isWhitespace := by
            have := dropWhile_head_false _ cs r rs hdrop
            simpa using this
          rw [splitWords_cons_ws r rs hr]
          have hlen : rs.length ≤ n := by
            have h1 : (r :: rs).length ≤ cs.length :=
              hdrop ▸ (List.dropWhile_sublist _).length_le
            simp only [List.length_cons] at h1
            omega
          have h2 := ih rs hlen
          have hmono : (r :: rs).countP (fun c => c.isWhitespace) ≤
              cs.countP (fun c => c.isWhitespace) :=
            hdrop ▸ ((List.dropWhile_sublist _).countP_le _)
          rw [List.countP_cons] at hmono
          have hrr : (fun c => c.isWhitespace) r = true := hr
          simp [hrr] at hmono
          omega

theorem splitWords_length_le (l : List Char) :
    (splitWords l).length ≤ l.countP (fun c => c.isWhitespace) + 1 :=
  splitWords_length_le_aux l.length l (le_refl _)

theorem natReprAux_no_ws : ∀ n : Nat, ∀ c ∈ natReprAux n, ¬c.isWhitespace := by
  intro n
  induction n using natReprAux.induct with
  | case1 => simp [natReprAux]
  | case2 n ih =>
    intro c hc
    rw [natReprAux] at hc
    rcases List.mem_append.mp hc with hm | hm
    · exact ih c hm
    · have hd : c = Char.ofNat (48 + (n + 1) % 10) := List.mem_singleton.mp hm
      have h10 : (n + 1) % 10 < 10 := Nat.mod_lt _ (by omega)
      subst hd
      interval_cases h : (n + 1) % 10 <;> decide

theorem natRepr_countWs (n : Nat) :
    (natRepr n).data.countP (fun c => c.isWhitespace) = 0 := by
  unfold natRepr
  split
  · decide
  · rw [List.countP_eq_zero]
    intro c hc
    simpa using natReprAux_no_ws n c hc

/-- Word-count bound for `literal ++ digits ++ literal`. -/
theorem words_bound_one_digit (A B : String) (n : Nat) :
    (splitWords (A ++ natRepr n ++ B).data).length ≤
      A.data.countP (fun c => c.isWhitespace) +
        B.data.countP (fun c => c.isWhitespace) + 1 := by
  rw [show (A ++ natRepr n ++ B).data = A.data ++ (natRepr n).data ++ B.data by
    rw [String.data_append, String.data_append]]
  have h := splitWords_length_le (A.data ++ (natRepr n).data ++ B.data)
  rw [List.countP_append, List.countP_append, natRepr_countWs] at h
  omega

/-- Word-count bound for `literal ++ digits ++ literal ++ digits ++ literal`. -/
theorem words_bound_two_digits (A B C : String) (m n : Nat) :
    (splitWords (A ++ natRepr m ++ B ++ natRepr n ++ C).data).length ≤
      A.data.countP (fun c => c.isWhitespace) +
        B.data.countP (fun c => c.isWhitespace) +
        C.data.countP (fun c => c.isWhitespace) + 1 := by
  rw [show (A ++ natRepr m ++ B ++ natRepr n ++ C).data =
      A.data ++ (natRepr m).data ++ B.data ++ (natRepr n).data ++ C.data by
    rw [String.data_append, String.data_append, String.data_append, String.data_append]]
  have h := splitWords_length_le
    (A.data ++ (natRepr m).data ++ B.data ++ (natRepr n).data ++ C.data)
  rw [List.countP_append, List.countP_append, List.countP_append, List.countP_append,
    natRepr_countWs, natRepr_countWs] at h
  omega

/-- The communication narrative always splits into at most 17 words. -/
theorem comm_text_words_le (g : Nat) :
    (splitWords (comm_text g).data).length ≤ 17 := by
  unfold comm_text
  split_ifs
  · exact le_trans (splitWords_length_le _) (by decide)
  · exact le_trans (words_bound_one_digit _ _ g) (by decide)
  · exact le_trans (words_bound_one_digit _ _ g) (by decide)
  · exact le_trans (words_bound_one_digit _ _ g) (by decide)

/-- The experience narrative always splits into at most 16 words. -/
theorem exp_text_words_le (m c : Nat) :
    (splitWords (exp_text m c).data).length ≤ 16 := by
  unfold exp_text
  split_ifs
  · exact le_trans (words_bound_one_digit _ _ m) (by decide)
  · exact le_trans (words_bound_two_digits _ _ _ m c) (by decide)
  · exact le_trans (words_bound_two_digits _ _ _ m (m + c)) (by decide)

theorem joinSp_length_le_append (as bs : List (List Char)) (ha : as ≠ []) :
    (joinSp as).length ≤ (joinSp (as ++ bs)).length := by
  cases bs with
  | nil => simp
  | cons b bt =>
    rw [joinSp_append as (b :: bt) ha (by simp)]
    simp

/-- If the whole remaining text fits on the pending line, the wrap loop just
accumulates: no writes, no page breaks, cursor unchanged. -/
theorem wrap_fold_single_line (size : Nat) (maxWidth : Int) :
    ∀ (ws : List (List Char)) (y : Int) (line : List Char) (lw : List (List Char))
      (ops : List Op),
      50 ≤ y → lw ≠ [] → line = joinSp lw → joinSp lw ≠ [] →
      ((joinSp (lw ++ ws)).length : Int) * (size : Int) < 2 * maxWidth →
      ws.foldl (wrapStep size maxWidth) (y, line, ops) = (y, joinSp (lw ++ ws), ops) := by
  intro ws
  induction ws with
  | nil =>
    intro y line lw ops _ _ hline _ _
    rw [List.foldl_nil, List.append_nil, hline]
  | cons w ws2 ih =>
    intro y line lw ops hy hlw hline hjne hfit
    rw [List.foldl_cons]
    subst hline
    have hcand : joinSp lw ++ ' ' :: w = joinSp (lw ++ [w]) :=
      (joinSp_append_singleton lw hlw w).symm
    have happ : (lw ++ [w]) ++ ws2 = lw ++ w :: ws2 := by simp
    have hfit2 : ((joinSp lw ++ ' ' :: w).length : Int) * (size : Int) < 2 * maxWidth := by
      rw [hcand]
      have hle : (joinSp (lw ++ [w])).length ≤ (joinSp (lw ++ w :: ws2)).length := by
        have h3 := joinSp_length_le_append (lw ++ [w]) ws2 (by simp)
        rw [happ] at h3
        exact h3
      have hle2 : ((joinSp (lw ++ [w])).length : Int) ≤
          ((joinSp (lw ++ w :: ws2)).length : Int) := by exact_mod_cast hle
      have hs0 : (0 : Int) ≤ (size : Int) := by positivity
      calc ((joinSp (lw ++ [w])).length : Int) * (size : Int)
          ≤ ((joinSp (lw ++ w :: ws2)).length : Int) * (size : Int) :=
            mul_le_mul_of_nonneg_right hle2 hs0
        _ < 2 * maxWidth := hfit
    rw [wrapStep_nonempty_fit size maxWidth y ops (joinSp lw) w hjne hfit2,
      if_neg (by omega : ¬y < 50), hcand]
    have hjne2 : joinSp (lw ++ [w]) ≠ [] := by
      rw [← hcand]
      simp
    have h2 := ih y (joinSp (lw ++ [w])) (lw ++ [w]) ops hy (by simp) rfl hjne2
      (by rw [happ]; exact hfit)
    rw [h2, happ]

/-- A `wrap_text` call whose whole text fits on one estimated line, starting
at or above the bottom margin, emits exactly one write at the entry cursor
and descends by exactly `size + 3`. -/
theorem wrap_text_single_line (y0 : Int) (text : String) (size indent : Nat)
    (hy : 50 ≤ y0) (hw : splitWords text.data ≠ [])
    (hfit : ((joinSp (splitWords text.data)).length : Int) * (size : Int) <
      2 * (612 - 80 - (indent : Int))) :
    wrap_text y0 text size indent =
      (y0 - ((size : Int) + 3),
       [Op.write y0 (String.mk ((joinSp (splitWords text.data)).take 110))]) := by
  obtain ⟨w, ws2, hws⟩ := List.exists_cons_of_ne_nil hw
  have hwne : w ≠ [] :=
    (splitWords_words text.data w (by rw [hws]; exact List.mem_cons_self _ _)).1
  have hwordsne : ∀ x ∈ splitWords text.data, x ≠ [] :=
    fun x hx => (splitWords_words text.data x hx).1
  simp only [wrap_text]
  rw [hws, List.foldl_cons, wrapStep_empty_line, if_neg (by omega : ¬y0 < 50)]
  have hjw : joinSp ([w] ++ ws2) = joinSp (splitWords text.data) := by
    rw [hws]
    rfl
  have h2 := wrap_fold_single_line size (612 - 80 - (indent : Int)) ws2 y0 w [w] []
    hy (by simp) rfl (by simpa [joinSp] using hwne)
    (by rw [hjw]; exact hfit)
  rw [h2, hjw]
  rw [if_neg (joinSp_ne_nil (splitWords text.data) hw hwordsne)]
  rw [hws]
  rfl

theorem cursor_writes_safe_append {a b : List Op}
    (ha : cursor_writes_safe a) (hb : cursor_writes_safe b) :
    cursor_writes_safe (a ++ b) := by
  intro y s h
  rcases List.mem_append.mp h with h2 | h2
  · exact ha y s h2
  · exact hb y s h2

theorem cursor_writes_safe_single {y0 : Int} {t : String} (h : (50 : Int) ≤ y0) :
    cursor_writes_safe [Op.write y0 t] := by
  intro y s hm
  have he := List.mem_singleton.mp hm
  injection he with e1 _
  omega

theorem cursor_writes_safe_nil : cursor_writes_safe [] := by
  intro y s hm
  simp at hm

theorem cursor_writes_safe_newPage : cursor_writes_safe [Op.newPage] := by
  intro y s hm
  simp at hm

theorem cursor_writes_safe_footerPair (a b : Int) (t u : String) :
    cursor_writes_safe [Op.footerWrite a t, Op.footerWrite b u] := by
  intro y s hm
  rcases List.mem_cons.mp hm with h2 | h2
  · exact absurd h2 (by simp)
  · simp at h2

theorem wrap_text_safe (y0 : Int) (text : String) (size indent : Nat) :
    cursor_writes_safe (wrap_text y0 text size indent).2 :=
  fun y s h => wrap_text_writes_safe y0 text size indent y s h

/-- The improvement-areas loop keeps all writes above the bottom margin and
the cursor at or below the top margin. -/
theorem improvements_fold_safe :
    ∀ (items : List (String × String × String)) (y : Int) (ops : List Op) (i : Nat),
      y ≤ 752 → cursor_writes_safe ops →
      cursor_writes_safe (items.foldl improvementStep (y, ops, i)).2.1 ∧
      (items.foldl improvementStep (y, ops, i)).1 ≤ 752 := by
  intro items
  induction items with
  | nil =>
    intro y ops i hy hops
    exact ⟨hops, hy⟩
  | cons item rest ih =>
    intro y ops i hy hops
    rw [List.foldl_cons]
    by_cases hy100 : y < 100
    · simp only [improvementStep, if_pos hy100]
      refine ih _ _ _ ?_ ?_
      · have hb := (wrap_text_y_bounds (792 - 40 - 12 - 10)
          ("Action: " ++ item.2.2) 9 30 (by norm_num)).2
        omega
      · refine cursor_writes_safe_append (cursor_writes_safe_append
          (cursor_writes_safe_append (cursor_writes_safe_append hops
            cursor_writes_safe_newPage)
            (cursor_writes_safe_single (by norm_num)))
          (cursor_writes_safe_single (by norm_num))) (wrap_text_safe _ _ _ _)
    · simp only [improvementStep, if_neg hy100]
      refine ih _ _ _ ?_ ?_
      · have hb := (wrap_text_y_bounds (y - 12 - 10)
          ("Action: " ++ item.2.2) 9 30 (by omega)).2
        omega
      · refine cursor_writes_safe_append (cursor_writes_safe_append
          (cursor_writes_safe_append hops
            (cursor_writes_safe_single (by omega)))
          (cursor_writes_safe_single (by omega))) (wrap_text_safe _ _ _ _)

/-- The recommendations loop with single-line items: exact descent of 18
per item, all writes safe, no page breaks taken. -/
theorem rec_fold_exact :
    ∀ (rs : List String) (y : Int) (ops : List Op),
      (∀ r ∈ rs, splitWords r.data ≠ [] ∧
        ((joinSp (splitWords r.data)).length : Int) * ((10 : Nat) : Int) <
          2 * (612 - 80 - ((0 : Nat) : Int))) →
      50 + 18 * (rs.length : Int) ≤ y → y ≤ 752 → cursor_writes_safe ops →
      (rs.foldl recStep (y, ops)).1 = y - 18 * (rs.length : Int) ∧
      cursor_writes_safe (rs.foldl recStep (y, ops)).2 := by
  intro rs
  induction rs with
  | nil =>
    intro y ops _ _ _ hops
    exact ⟨by simp, hops⟩
  | cons r rest ih =>
    intro y ops hfits hy hy752 hops
    have hr := hfits r (by simp)
    have hy50 : (50 : Int) ≤ y := by
      have : (0 : Int) ≤ (rest.length : Int) := by positivity
      simp only [List.length_cons] at hy
      push_cast at hy
      linarith
    rw [List.foldl_cons]
    simp only [recStep, if_neg (by omega : ¬y < 50)]
    rw [wrap_text_single_line y r 10 0 hy50 hr.1 hr.2]
    dsimp only
    have hstep := ih (y - (((10 : Nat) : Int) + 3) - 5)
      (ops ++ [Op.write y (String.mk ((joinSp (splitWords r.data)).take 110))])
      (fun x hx => hfits x (by simp [hx]))
      (by
        simp only [List.length_cons] at hy
        push_cast at hy ⊢
        linarith)
      (by push_cast; linarith)
      (cursor_writes_safe_append hops (cursor_writes_safe_single hy50))
    refine ⟨?_, hstep.2⟩
    rw [hstep.1]
    simp only [List.length_cons]
    push_cast
    ring

theorem wrap_lower_of_words_le (y0 : Int) (text : String) (size indent : Nat) (n : Nat)
    (hy : y0 ≤ 752) (hn : (splitWords text.data).length ≤ n) :
    y0 - (n : Int) * ((size : Int) + 3) ≤ (wrap_text y0 text size indent).1 := by
  have h := (wrap_text_y_bounds y0 text size indent hy).1
  have hc : ((splitWords text.data).length : Int) ≤ (n : Int) := by exact_mod_cast hn
  have hs0 : (0 : Int) ≤ (size : Int) + 3 := by positivity
  nlinarith [h, mul_le_mul_of_nonneg_right hc hs0]

theorem splitWordsFuel_eq :
    ∀ (n : Nat) (l : List Char), l.length ≤ n → splitWordsFuel n l = splitWords l := by
  intro n
  induction n with
  | zero =>
    intro l h
    have hl : l = [] := List.eq_nil_of_length_eq_zero (by omega)
    subst hl
    simp [splitWordsFuel, splitWords]
  | succ n ih =>
    intro l h
    cases l with
    | nil => simp [splitWordsFuel, splitWords]
    | cons c cs =>
      have hlen : cs.length ≤ n := by
        simp only [List.length_cons] at h
        omega
      simp only [splitWordsFuel]
      by_cases hc : c.isWhitespace
      · rw [if_pos hc, splitWords_cons_ws c cs hc, ih cs hlen]
      · rw [if_neg hc, splitWords, if_neg hc,
          ih _ (le_trans (List.dropWhile_sublist _).length_le hlen)]

theorem splitWords_eq_fuel (l : List Char) : splitWords l = splitWordsFuel l.length l :=
  (splitWordsFuel_eq l.length l (le_refl _)).symm

/-- Every recommendation list has five entries, each fitting on one
estimated line at size 10 with no indent. -/
theorem recommendations_of_fits (llm : String) :
    (recommendations_of llm).length = 5 ∧
    ∀ r ∈ recommendations_of llm, splitWords r.data ≠ [] ∧
      ((joinSp (splitWords r.data)).length : Int) * ((10 : Nat) : Int) <
        2 * (612 - 80 - ((0 : Nat) : Int)) := by
  unfold recommendations_of
  split_ifs
  · exact ⟨rfl, by simp only [splitWords_eq_fuel]; decide⟩
  · exact ⟨rfl, by simp only [splitWords_eq_fuel]; decide⟩
  · exact ⟨rfl, by simp only [splitWords_eq_fuel]; decide⟩

/-- Safety of the report tail (HR recommendations, next steps, footer)
given any improvement-loop outcome. -/
theorem c6_recommendations_tail (llm aid : String) (st1y : Int) (st1ops : List Op)
    (h1u : st1y ≤ 752) (h1safe : cursor_writes_safe st1ops) :
    cursor_writes_safe
      ((((recommendations_of llm).foldl recStep
          ((if st1y < 200 then 792 - 40 else st1y) - 25 - 10,
           (if st1y < 200 then st1ops ++ [Op.newPage] else st1ops) ++
             [Op.write (if st1y < 200 then 792 - 40 else st1y) ("✅ HR RECOMMENDATIONS")])).2 ++
        [Op.write (((recommendations_of llm).foldl recStep
          ((if st1y < 200 then 792 - 40 else st1y) - 25 - 10,
           (if st1y < 200 then st1ops ++ [Op.newPage] else st1ops) ++
             [Op.write (if st1y < 200 then 792 - 40 else st1y) ("✅ HR RECOMMENDATIONS")])).1 - 10)
          ("📋 NEXT STEPS")] ++
        (wrap_text ((((recommendations_of llm).foldl recStep
          ((if st1y < 200 then 792 - 40 else st1y) - 25 - 10,
           (if st1y < 200 then st1ops ++ [Op.newPage] else st1ops) ++
             [Op.write (if st1y < 200 then 792 - 40 else st1y) ("✅ HR RECOMMENDATIONS")])).1 - 10) - 25 - 10)
          (next_steps_of llm) 9 15).2) ++
      [Op.footerWrite 25 ("CONFIDENTIAL - For HR Use Only"),
       Op.footerWrite 15 ("Assessment ID: " ++ aid)]) := by
  obtain ⟨hlen, hfits⟩ := recommendations_of_fits llm
  by_cases h2 : st1y < 200
  · rw [if_pos h2, if_pos h2]
    have hrec := rec_fold_exact (recommendations_of llm) (792 - 40 - 25 - 10)
      ((st1ops ++ [Op.newPage]) ++ [Op.write (792 - 40) ("✅ HR RECOMMENDATIONS")])
      hfits (by rw [hlen]; norm_num) (by norm_num)
      (cursor_writes_safe_append
        (cursor_writes_safe_append h1safe cursor_writes_safe_newPage)
        (cursor_writes_safe_single (by norm_num)))
    refine cursor_writes_safe_append (cursor_writes_safe_append (cursor_writes_safe_append
      hrec.2 (cursor_writes_safe_single ?_)) (wrap_text_safe _ _ _ _))
      (cursor_writes_safe_footerPair _ _ _ _)
    rw [hrec.1, hlen]
    norm_num
  · rw [if_neg h2, if_neg h2]
    have h200 : 200 ≤ st1y := by omega
    have hrec := rec_fold_exact (recommendations_of llm) (st1y - 25 - 10)
      (st1ops ++ [Op.write st1y ("✅ HR RECOMMENDATIONS")])
      hfits (by rw [hlen]; push_cast; omega) (by omega)
      (cursor_writes_safe_append h1safe (cursor_writes_safe_single (by omega)))
    refine cursor_writes_safe_append (cursor_writes_safe_append (cursor_writes_safe_append
      hrec.2 (cursor_writes_safe_single ?_)) (wrap_text_safe _ _ _ _))
      (cursor_writes_safe_footerPair _ _ _ _)
    rw [hrec.1, hlen]
    push_cast
    omega

/-- Safety of everything after the detailed-assessment section, given the
prefix ops and the cursor position after the technical-knowledge wrap. -/
theorem c6_after_assessment (g mc cc : Nat) (llm aid : String) (PRE : List Op) (W3y : Int)
    (hPRE : cursor_writes_safe PRE) (hW3u : W3y ≤ 752) :
    cursor_writes_safe
      ((((recommendations_of llm).foldl recStep
          ((if ((improvements_list g mc cc).foldl improvementStep
                ((if W3y - 20 < 150 then 792 - 40 else W3y - 20) - 25 - 10,
                 (if W3y - 20 < 150 then PRE ++ [Op.newPage] else PRE) ++
                   [Op.write (if W3y - 20 < 150 then 792 - 40 else W3y - 20)
                     ("🎯 AREAS FOR IMPROVEMENT")], 1)).1 < 200
            then 792 - 40
            else ((improvements_list g mc cc).foldl improvementStep
                ((if W3y - 20 < 150 then 792 - 40 else W3y - 20) - 25 - 10,
                 (if W3y - 20 < 150 then PRE ++ [Op.newPage] else PRE) ++
                   [Op.write (if W3y - 20 < 150 then 792 - 40 else W3y - 20)
                     ("🎯 AREAS FOR IMPROVEMENT")], 1)).1) - 25 - 10,
           (if ((improvements_list g mc cc).foldl improvementStep
                ((if W3y - 20 < 150 then 792 - 40 else W3y - 20) - 25 - 10,
                 (if W3y - 20 < 150 then PRE ++ [Op.newPage] else PRE) ++
                   [Op.write (if W3y - 20 < 150 then 792 - 40 else W3y - 20)
                     ("🎯 AREAS FOR IMPROVEMENT")], 1)).1 < 200
            then ((improvements_list g mc cc).foldl improvementStep
                ((if W3y - 20 < 150 then 792 - 40 else W3y - 20) - 25 - 10,
                 (if W3y - 20 < 150 then PRE ++ [Op.newPage] else PRE) ++
                   [Op.write (if W3y - 20 < 150 then 792 - 40 else W3y - 20)
                     ("🎯 AREAS FOR IMPROVEMENT")], 1)).2.1 ++ [Op.newPage]
            else ((improvements_list g mc cc).foldl improvementStep
                ((if W3y - 20 < 150 then 792 - 40 else W3y - 20) - 25 - 10,
                 (if W3y - 20 < 150 then PRE ++ [Op.newPage] else PRE) ++
                   [Op.write (if W3y - 20 < 150 then 792 - 40 else W3y - 20)
                     ("🎯 AREAS FOR IMPROVEMENT")], 1)).2.1) ++
             [Op.write (if ((improvements_list g mc cc).foldl improvementStep
                ((if W3y - 20 < 150 then 792 - 40 else W3y - 20) - 25 - 10,
                 (if W3y - 20 < 150 then PRE ++ [Op.newPage] else PRE) ++
                   [Op.write (if W3y - 20 < 150 then 792 - 40 else W3y - 20)
                     ("🎯 AREAS FOR IMPROVEMENT")], 1)).1 < 200
              then 792 - 40
              else ((improvements_list g mc cc).foldl improvementStep
                ((if W3y - 20 < 150 then 792 - 40 else W3y - 20) - 25 - 10,
                 (if W3y - 20 < 150 then PRE ++ [Op.newPage] else PRE) ++
                   [Op.write (if W3y - 20 < 150 then 792 - 40 else W3y - 20)
                     ("🎯 AREAS FOR IMPROVEMENT")], 1)).1)
               ("✅ HR RECOMMENDATIONS")])).2 ++
        [Op.write (((recommendations_of llm).foldl recStep
          ((if ((improvements_list g mc cc).foldl improvementStep
                ((if W3y - 20 < 150 then 792 - 40 else W3y - 20) - 25 - 10,
                 (if W3y - 20 < 150 then PRE ++ [Op.newPage] else PRE) ++
                   [Op.write (if W3y - 20 < 150 then 792 - 40 else W3y - 20)
                     ("🎯 AREAS FOR IMPROVEMENT")], 1)).1 < 200
            then 792 - 40
            else ((improvements_list g mc cc).foldl improvementStep
                ((if W3y - 20 < 150 then 792 - 40 else W3y - 20) - 25 - 10,
                 (if W3y - 20 < 150 then PRE ++ [Op.newPage] else PRE) ++
                   [Op.write (if W3y - 20 < 150 then 792 - 40 else W3y - 20)
                     ("🎯 AREAS FOR IMPROVEMENT")], 1)).1) - 25 - 10,
           (if ((improvements_list g mc cc).foldl improvementStep
                ((if W3y - 20 < 150 then 792 - 40 else W3y - 20) - 25 - 10,
                 (if W3y - 20 < 150 then PRE ++ [Op.newPage] else PRE) ++
                   [Op.write (if W3y - 20 < 150 then 792 - 40 else W3y - 20)
                     ("🎯 AREAS FOR IMPROVEMENT")], 1)).1 < 200
            then ((improvements_list g mc cc).foldl improvementStep
                ((if W3y - 20 < 150 then 792 - 40 else W3y - 20) - 25 - 10,
                 (if W3y - 20 < 150 then PRE ++ [Op.newPage] else PRE) ++
                   [Op.write (if W3y - 20 < 150 then 792 - 40 else W3y - 20)
                     ("🎯 AREAS FOR IMPROVEMENT")], 1)).2.1 ++ [Op.newPage]
            else ((improvements_list g mc cc).foldl improvementStep
                ((if W3y - 20 < 150 then 792 - 40 else W3y - 20) - 25 - 10,
                 (if W3y - 20 < 150 then PRE ++ [Op.newPage] else PRE) ++
                   [Op.write (if W3y - 20 < 150 then 792 - 40 else W3y - 20)
                     ("🎯 AREAS FOR IMPROVEMENT")], 1)).2.1) ++
             [Op.write (if ((improvements_list g mc cc).foldl improvementStep
                ((if W3y - 20 < 150 then 792 - 40 else W3y - 20) - 25 - 10,
                 (if W3y - 20 < 150 then PRE ++ [Op.newPage] else PRE) ++
                   [Op.write (if W3y - 20 < 150 then 792 - 40 else W3y - 20)
                     ("🎯 AREAS FOR IMPROVEMENT")], 1)).1 < 200
              then 792 - 40
              else ((improvements_list g mc cc).foldl improvementStep
                ((if W3y - 20 < 150 then 792 - 40 else W3y - 20) - 25 - 10,
                 (if W3y - 20 < 150 then PRE ++ [Op.newPage] else PRE) ++
                   [Op.write (if W3y - 20 < 150 then 792 - 40 else W3y - 20)
                     ("🎯 AREAS FOR IMPROVEMENT")], 1)).1)
               ("✅ HR RECOMMENDATIONS")])).1 - 10)
          ("📋 NEXT STEPS")] ++
        (wrap_text ((((recommendations_of llm).foldl recStep
          ((if ((improvements_list g mc cc).foldl improvementStep
                ((if W3y - 20 < 150 then 792 - 40 else W3y - 20) - 25 - 10,
                 (if W3y - 20 < 150 then PRE ++ [Op.newPage] else PRE) ++
                   [Op.write (if W3y - 20 < 150 then 792 - 40 else W3y - 20)
                     ("🎯 AREAS FOR IMPROVEMENT")], 1)).1 < 200
            then 792 - 40
            else ((improvements_list g mc cc).foldl improvementStep
                ((if W3y - 20 < 150 then 792 - 40 else W3y - 20) - 25 - 10,
                 (if W3y - 20 < 150 then PRE ++ [Op.newPage] else PRE) ++
                   [Op.write (if W3y - 20 < 150 then 792 - 40 else W3y - 20)
                     ("🎯 AREAS FOR IMPROVEMENT")], 1)).1) - 25 - 10,
           (if ((improvements_list g mc cc).foldl improvementStep
                ((if W3y - 20 < 150 then 792 - 40 else W3y - 20) - 25 - 10,
                 (if W3y - 20 < 150 then PRE ++ [Op.newPage] else PRE) ++
                   [Op.write (if W3y - 20 < 150 then 792 - 40 else W3y - 20)
                     ("🎯 AREAS FOR IMPROVEMENT")], 1)).1 < 200
            then ((improvements_list g mc cc).foldl improvementStep
                ((if W3y - 20 < 150 then 792 - 40 else W3y - 20) - 25 - 10,
                 (if W3y - 20 < 150 then PRE ++ [Op.newPage] else PRE) ++
                   [Op.write (if W3y - 20 < 150 then 792 - 40 else W3y - 20)
                     ("🎯 AREAS FOR IMPROVEMENT")], 1)).2.1 ++ [Op.newPage]
            else ((improvements_list g mc cc).foldl improvementStep
                ((if W3y - 20 < 150 then 792 - 40 else W3y - 20) - 25 - 10,
                 (if W3y - 20 < 150 then PRE ++ [Op.newPage] else PRE) ++
                   [Op.write (if W3y - 20 < 150 then 792 - 40 else W3y - 20)
                     ("🎯 AREAS FOR IMPROVEMENT")], 1)).2.1) ++
             [Op.write (if ((improvements_list g mc cc).foldl improvementStep
                ((if W3y - 20 < 150 then 792 - 40 else W3y - 20) - 25 - 10,
                 (if W3y - 20 < 150 then PRE ++ [Op.newPage] else PRE) ++
                   [Op.write (if W3y - 20 < 150 then 792 - 40 else W3y - 20)
                     ("🎯 AREAS FOR IMPROVEMENT")], 1)).1 < 200
              then 792 - 40
              else ((improvements_list g mc cc).foldl improvementStep
                ((if W3y - 20 < 150 then 792 - 40 else W3y - 20) - 25 - 10,
                 (if W3y - 20 < 150 then PRE ++ [Op.newPage] else PRE) ++
                   [Op.write (if W3y - 20 < 150 then 792 - 40 else W3y - 20)
                     ("🎯 AREAS FOR IMPROVEMENT")], 1)).1)
               ("✅ HR RECOMMENDATIONS")])).1 - 10) - 25 - 10)
          (next_steps_of llm) 9 15).2) ++
      [Op.footerWrite 25 ("CONFIDENTIAL - For HR Use Only"),
       Op.footerWrite 15 ("Assessment ID: " ++ aid)]) := by
  by_cases h1 : W3y - 20 < 150
  · rw [if_pos h1, if_pos h1]
    refine c6_recommendations_tail llm aid _ _ ?_ ?_
    · exact (improvements_fold_safe _ _ _ _ (by norm_num)
        (cursor_writes_safe_append
          (cursor_writes_safe_append hPRE cursor_writes_safe_newPage)
          (cursor_writes_safe_single (by norm_num)))).2
    · exact (improvements_fold_safe _ _ _ _ (by norm_num)
        (cursor_writes_safe_append
          (cursor_writes_safe_append hPRE cursor_writes_safe_newPage)
          (cursor_writes_safe_single (by norm_num)))).1
  · rw [if_neg h1, if_neg h1]
    have h150 : 150 ≤ W3y - 20 := by omega
    refine c6_recommendations_tail llm aid _ _ ?_ ?_
    · exact (improvements_fold_safe _ _ _ _ (by omega)
        (cursor_writes_safe_append hPRE (cursor_writes_safe_single (by omega)))).2
    · exact (improvements_fold_safe _ _ _ _ (by omega)
        (cursor_writes_safe_append hPRE (cursor_writes_safe_single (by omega)))).1

/-- C6: throughout document generation, for every input, every
cursor-positioned write lands at or above the fixed bottom margin y=50 —
equivalently, whenever a write would land below the bottom margin, a page
break resetting the cursor to the top margin (y = 792 - 40) has been
emitted first.  (The two footer lines are drawn at the fixed positions
y=25/y=15 independent of the layout cursor.) -/
theorem spec_c6_page_break_invariant :
    ∀ (grammar_errors : Nat) (entities matched cv_only : Finset Entity)
      (llm_summary candidate_name position dateStr timeStr assessId : String),
      cursor_writes_safe (generate_ops grammar_errors entities matched cv_only
        llm_summary candidate_name position dateStr timeStr assessId) := by
  intro g ents m c llm cn pos ds ts aid
  have hW1 := wrap_text_y_bounds
    (792 - 40 - 10 - 25 - 15 - 30 - 30 - 10 - 25 - 15 - 15 - 15 - 25 - 25 - 15)
    (comm_text g) 9 20 (by norm_num)
  have hW1low := wrap_lower_of_words_le
    (792 - 40 - 10 - 25 - 15 - 30 - 30 - 10 - 25 - 15 - 15 - 15 - 25 - 25 - 15)
    (comm_text g) 9 20 17 (by norm_num) (comm_text_words_le g)
  have hc17 : ((17 : Nat) : Int) * (((9 : Nat) : Int) + 3) = 204 := by norm_num
  rw [hc17] at hW1low
  have hW1f : (50 : Int) ≤ (wrap_text
      (792 - 40 - 10 - 25 - 15 - 30 - 30 - 10 - 25 - 15 - 15 - 15 - 25 - 25 - 15)
      (comm_text g) 9 20).1 - 10 := by
    linarith [hW1low]
  have hW2 := wrap_text_y_bounds
    ((wrap_text (792 - 40 - 10 - 25 - 15 - 30 - 30 - 10 - 25 - 15 - 15 - 15 - 25 - 25 - 15)
      (comm_text g) 9 20).1 - 10 - 15)
    (exp_text m.card c.card) 9 20 (by linarith [hW1.2])
  have hW2low := wrap_lower_of_words_le
    ((wrap_text (792 - 40 - 10 - 25 - 15 - 30 - 30 - 10 - 25 - 15 - 15 - 15 - 25 - 25 - 15)
      (comm_text g) 9 20).1 - 10 - 15)
    (exp_text m.card c.card) 9 20 16 (by linarith [hW1.2]) (exp_text_words_le m.card c.card)
  have hc16 : ((16 : Nat) : Int) * (((9 : Nat) : Int) + 3) = 192 := by norm_num
  rw [hc16] at hW2low
  have hW2f : (50 : Int) ≤ (wrap_text
      ((wrap_text (792 - 40 - 10 - 25 - 15 - 30 - 30 - 10 - 25 - 15 - 15 - 15 - 25 - 25 - 15)
        (comm_text g) 9 20).1 - 10 - 15)
      (exp_text m.card c.card) 9 20).1 - 10 := by
    linarith [hW1low, hW2low]
  have hW3 := wrap_text_y_bounds
    ((wrap_text ((wrap_text
        (792 - 40 - 10 - 25 - 15 - 30 - 30 - 10 - 25 - 15 - 15 - 15 - 25 - 25 - 15)
        (comm_text g) 9 20).1 - 10 - 15)
      (exp_text m.card c.card) 9 20).1 - 10 - 15)
    (tech_text m.card) 9 20 (by linarith [hW2.2])
  simp only [generate_ops, draw_colored_box, draw_section_header]
  refine c6_after_assessment g m.card c.card llm aid _ _ ?_ ?_
  · refine cursor_writes_safe_append ?_ (wrap_text_safe _ _ _ _)
    refine cursor_writes_safe_append ?_ (cursor_writes_safe_single hW2f)
    refine cursor_writes_safe_append ?_ (wrap_text_safe _ _ _ _)
    refine cursor_writes_safe_append ?_ (cursor_writes_safe_single hW1f)
    refine cursor_writes_safe_append ?_ (wrap_text_safe _ _ _ _)
    refine cursor_writes_safe_append ?_ (cursor_writes_safe_single (by norm_num))
    refine cursor_writes_safe_append ?_ (cursor_writes_safe_single (by norm_num))
    refine cursor_writes_safe_append ?_ (cursor_writes_safe_single (by norm_num))
    refine cursor_writes_safe_append ?_ (cursor_writes_safe_single (by norm_num))
    refine cursor_writes_safe_append ?_ (cursor_writes_safe_single (by norm_num))
    refine cursor_writes_safe_append ?_ (cursor_writes_safe_single (by norm_num))
    refine cursor_writes_safe_append ?_ (cursor_writes_safe_single (by norm_num))
    refine cursor_writes_safe_append ?_ (cursor_writes_safe_single (by norm_num))
    refine cursor_writes_safe_append ?_ (cursor_writes_safe_single (by norm_num))
    refine cursor_writes_safe_append ?_ (cursor_writes_safe_single (by norm_num))
    exact cursor_writes_safe_single (by norm_num)
  · exact hW3.2
